import Mathlib

/-!
Verification development for the RTP retransmission elements
`rtprtxsend` / `rtprtxreceive` (gst/rtpmanager/gstrtprtxsend.c and
gst/rtpmanager/gstrtprtxreceive.c).

The C code is shallowly embedded: GLib hash tables become association
lists over `Nat`, GStreamer buffers become a record of the four regions
of the `GstRTPBuffer` view (fixed header bytes, extension bytes, payload
bytes, padding bytes), unsigned machine arithmetic is `Nat` with the
wrap written out as `% 2^w`, and the global random source
(`g_random_int`, `g_random_int_range`) is an explicit finite list of
draws handed to each operation; an operation returns `none` exactly when
the C loop would have had to keep drawing past the supplied draws.
-/

namespace RtpRtx

/-! ## Association lists (model of `GHashTable` with `g_direct_hash`) -/

/-- Look up a key in an association list (model of `g_hash_table_lookup`
returning an optional value). -/
def alookup {α : Type} (l : List (Nat × α)) (k : Nat) : Option α :=
  match l with
  | [] => none
  | (k1, v) :: rest => if k1 = k then some v else alookup rest k

/-- Key membership (model of `g_hash_table_contains` /
`g_hash_table_lookup_extended` used only for its boolean result). -/
def acontains {α : Type} (l : List (Nat × α)) (k : Nat) : Bool :=
  (alookup l k).isSome

/-- Insert, replacing the value when the key is already present (the
semantics of `g_hash_table_insert`). -/
def ainsert {α : Type} (l : List (Nat × α)) (k : Nat) (v : α) : List (Nat × α) :=
  match l with
  | [] => [(k, v)]
  | (k1, v1) :: rest => if k1 = k then (k, v) :: rest else (k1, v1) :: ainsert rest k v

/-- Remove a key (model of `g_hash_table_remove`). -/
def aremove {α : Type} (l : List (Nat × α)) (k : Nat) : List (Nat × α) :=
  match l with
  | [] => []
  | (k1, v1) :: rest => if k1 = k then rest else (k1, v1) :: aremove rest k

/-- The keys of an association list. -/
def akeys {α : Type} (l : List (Nat × α)) : List Nat := l.map Prod.fst


/-! ## RFC 1982 serial-number arithmetic over 16 bits

`gst_rtp_buffer_compare_seqnum (s1, s2)` is `(gint16) (s2 - s1)` in
C; `buffer_queue_items_cmp (a, b)` in gstrtprtxsend.c returns
`gst_rtp_buffer_compare_seqnum (b->seqnum, a->seqnum)`, i.e. the
signed 16-bit value of `a->seqnum - b->seqnum`. -/

/-- Reinterpret a value reduced mod 2^16 as a signed 16-bit integer. -/
def toInt16 (n : Nat) : Int :=
  if n % 65536 < 32768 then ((n % 65536 : Nat) : Int) else ((n % 65536 : Nat) : Int) - 65536

/-- `gst_rtp_buffer_compare_seqnum (s1, s2) = (gint16) (s2 - s1)`
(subtraction in unsigned 16-bit arithmetic). -/
def compareSeqnum (s1 s2 : Nat) : Int :=
  toInt16 (s2 % 65536 + 65536 - s1 % 65536)

/-- `buffer_queue_items_cmp` applied to the two items' seqnums:
`compareSeqnum (b, a)`, negative when `a` is serially before `b`. -/
def itemsCmp (a b : Nat) : Int :=
  compareSeqnum b a

/-! ## RTP buffer view

A parsed packet, as the four independently addressable regions of a
`GstRTPBuffer` mapping: `header = map[0]` (fixed 12-byte header plus
CSRCs), `ext = map[1]`, `payload = map[2]`, `padding = map[3]`.
Bytes are `Nat`s kept below 256 by the readers/writers. -/

structure RtpPacket where
  header : List Nat
  ext : List Nat
  payload : List Nat
  padding : List Nat
  deriving DecidableEq, Repr

/-- Big-endian 16-bit read at a byte offset (`GST_READ_UINT16_BE`). -/
def readBE16 (l : List Nat) (off : Nat) : Nat :=
  (l.getD off 0 % 256) * 256 + l.getD (off + 1) 0 % 256

/-- Big-endian 32-bit read at a byte offset (`GST_READ_UINT32_BE`). -/
def readBE32 (l : List Nat) (off : Nat) : Nat :=
  ((l.getD off 0 % 256) * 16777216) + ((l.getD (off + 1) 0 % 256) * 65536) +
    ((l.getD (off + 2) 0 % 256) * 256) + l.getD (off + 3) 0 % 256

/-- Big-endian 16-bit write at a byte offset (`GST_WRITE_UINT16_BE`). -/
def writeBE16 (l : List Nat) (off v : Nat) : List Nat :=
  (l.set off (v / 256 % 256)).set (off + 1) (v % 256)

/-- Big-endian 32-bit write at a byte offset (`GST_WRITE_UINT32_BE`). -/
def writeBE32 (l : List Nat) (off v : Nat) : List Nat :=
  ((((l.set off (v / 16777216 % 256)).set (off + 1) (v / 65536 % 256)).set
      (off + 2) (v / 256 % 256)).set (off + 3) (v % 256))

/-- `gst_rtp_buffer_get_ssrc`: big-endian 32-bit field at header offset 8. -/
def RtpPacket.getSsrc (p : RtpPacket) : Nat := readBE32 p.header 8

/-- `gst_rtp_buffer_get_seq`: big-endian 16-bit field at header offset 2. -/
def RtpPacket.getSeq (p : RtpPacket) : Nat := readBE16 p.header 2

/-- `gst_rtp_buffer_get_timestamp`: big-endian 32-bit field at header offset 4. -/
def RtpPacket.getTimestamp (p : RtpPacket) : Nat := readBE32 p.header 4

/-- `gst_rtp_buffer_get_payload_type`: low 7 bits of header byte 1. -/
def RtpPacket.getPt (p : RtpPacket) : Nat := p.header.getD 1 0 % 128

/-- `gst_rtp_buffer_set_ssrc`. -/
def RtpPacket.setSsrc (p : RtpPacket) (v : Nat) : RtpPacket :=
  { p with header := writeBE32 p.header 8 v }

/-- `gst_rtp_buffer_set_seq`. -/
def RtpPacket.setSeq (p : RtpPacket) (v : Nat) : RtpPacket :=
  { p with header := writeBE16 p.header 2 v }

/-- `gst_rtp_buffer_set_payload_type`: guarded by
`g_return_if_fail (payload_type < 0x80)`, then
`data[1] = (data[1] & 0x80) | payload_type`. -/
def RtpPacket.setPt (p : RtpPacket) (v : Nat) : RtpPacket :=
  if v < 128 then
    { p with header := p.header.set 1 (p.header.getD 1 0 % 256 / 128 * 128 + v) }
  else p

/-- `gst_rtp_buffer_set_padding (…, FALSE)`: clear bit 0x20 of header
byte 0. -/
def RtpPacket.clearPaddingFlag (p : RtpPacket) : RtpPacket :=
  { p with header := p.header.set 0 (p.header.getD 0 0 % 256 / 64 * 64 + p.header.getD 0 0 % 32) }

/-! ## Receiver (gstrtprtxreceive.c) -/

/-- State of a `GstRtpRtxReceive` element: the two hash tables, the live
and pending payload-type maps, and the three counters. -/
structure RecvState where
  /-- `ssrc2_ssrc1_map`: symmetric association between master and rtx SSRCs. -/
  assoc : List (Nat × Nat)
  /-- `seqnum_ssrc1_map`: outstanding requests, seqnum to master ssrc. -/
  reqTable : List (Nat × Nat)
  /-- `rtx_pt_map`: live map from rtx payload type to original payload type. -/
  rtxPtMap : List (Nat × Nat)
  /-- `pending_rtx_pt_map`: configured structure, pairs (original pt, rtx pt). -/
  pendingPtMap : List (Nat × Nat)
  /-- `rtx_pt_map_changed`. -/
  ptMapChanged : Bool
  /-- `num_rtx_requests`. -/
  numReq : Nat
  /-- `num_rtx_packets`. -/
  numPkt : Nat
  /-- `num_rtx_assoc_packets`. -/
  numAssoc : Nat
  deriving DecidableEq, Repr

/-- A fresh element (gst_rtp_rtx_receive_init). -/
def initRecvState : RecvState :=
  { assoc := [], reqTable := [], rtxPtMap := [], pendingPtMap := [],
    ptMapChanged := false, numReq := 0, numPkt := 0, numAssoc := 0 }

/-- `gst_rtp_rtx_receive_reset`. -/
def recvReset (st : RecvState) : RecvState :=
  { st with assoc := [], reqTable := [], numReq := 0, numPkt := 0, numAssoc := 0 }

/-- PT-map refresh performed at each packet boundary: when
`rtx_pt_map_changed`, rebuild `rtx_pt_map` from the pending structure via
`structure_to_hash_table_inv`, which inserts `hash[value] = field`
(rtx pt as key, original pt as value). -/
def recvPtRefresh (st : RecvState) : RecvState :=
  if st.ptMapChanged then
    { st with rtxPtMap := st.pendingPtMap.foldl (fun h pr => ainsert h pr.2 pr.1) [],
              ptMapChanged := false }
  else st

/-- `gst_rtp_rtx_receive_src_event` on a `GstRTPRetransmissionRequest`
with fields `(seqnum, ssrc)`. Returns the new state and whether the
event was forwarded upstream (`gst_pad_event_default`); `false` means
the handler consumed the event and returned `TRUE` itself. -/
def recvSrcEventTable (st : RecvState) (seqnum ssrc : Nat) : RecvState × Bool :=
  match alookup st.reqTable seqnum with
  | some s1 =>
    if s1 = ssrc then
      (st, true)
    else
      ({ st with reqTable := aremove st.reqTable seqnum }, false)
  | none =>
    ({ st with reqTable := ainsert st.reqTable seqnum ssrc }, true)

/-- The full request handler: burying the not-yet-associated path in
`recvSrcEventTable` above. -/
def recvSrcEvent (st0 : RecvState) (seqnum ssrc : Nat) : RecvState × Bool :=
  let st := { st0 with numReq := st0.numReq + 1 }
  match alookup st.assoc ssrc with
  | some v => if v ≠ ssrc then (st, true) else recvSrcEventTable st seqnum ssrc
  | none => recvSrcEventTable st seqnum ssrc

/-- `_gst_rtp_buffer_new_from_rtx`: copy fixed header and extension,
drop the two OSN bytes from the payload, rebuild a padding region of
the same length with its last byte set to the length, then overwrite
SSRC, seqnum and payload type.

`fill` models the contents of freshly `gst_allocator_alloc`ed memory
(the C code leaves those bytes uninitialised); it also stands in for
the bytes `memcpy` reads past the source payload when
`payload_len = rtp->size[2] - 2` underflows. The payload length is the
C `guint` value, i.e. `(size[2] - 2) mod 2^32`. -/
def newFromRtx (fill : Nat) (p : RtpPacket) (ssrc1 osn originPt : Nat) : RtpPacket :=
  let payloadLen := (p.payload.length + 4294967296 - 2) % 4294967296
  let payloadBytes :=
    if p.payload.length ≠ 0 then
      List.take payloadLen
        (p.payload.drop 2 ++ List.replicate (payloadLen - (p.payload.length - 2)) (fill % 256))
    else List.replicate payloadLen (fill % 256)
  let paddingBytes :=
    if p.padding.length ≠ 0 then
      (List.replicate p.padding.length (fill % 256)).set (p.padding.length - 1)
        (p.padding.length % 256)
    else []
  let q : RtpPacket :=
    { header := p.header, ext := p.ext, payload := payloadBytes, padding := paddingBytes }
  ((q.setSsrc ssrc1).setSeq osn).setPt originPt

/-- What the receiver chain did with a packet. -/
inductive RecvOut
  | dropped
  | master (p : RtpPacket)
  | reconstructed (p : RtpPacket)
  deriving DecidableEq, Repr

/-- `gst_rtp_rtx_receive_chain`. Classifies the packet by payload type,
reads the OSN from the first two payload bytes when it is an RTX packet
(with no length check: for payloads shorter than two bytes this read is
past the region, modeled through `getD … 0`), resolves or establishes
the association, and either drops the packet or pushes the master
packet / the reconstructed packet. -/
def recvChain (fill : Nat) (st0 : RecvState) (p : RtpPacket) : RecvState × RecvOut :=
  let ssrc := p.getSsrc
  let pt := p.getPt
  let st := recvPtRefresh st0
  let isRtx := acontains st.rtxPtMap pt
  if isRtx then
    let osn := readBE16 p.payload 0
    let originPt := (alookup st.rtxPtMap pt).getD 0
    let st := { st with numPkt := st.numPkt + 1 }
    match alookup st.assoc ssrc with
    | some s1 =>
      ({ st with numAssoc := st.numAssoc + 1 },
        RecvOut.reconstructed (newFromRtx fill p s1 osn originPt))
    | none =>
      match alookup st.reqTable osn with
      | some s1 =>
        ({ st with reqTable := aremove st.reqTable osn,
                   assoc := ainsert (ainsert st.assoc ssrc s1) s1 ssrc,
                   numAssoc := st.numAssoc + 1 },
          RecvOut.reconstructed (newFromRtx fill p s1 osn originPt))
      | none => (st, RecvOut.dropped)
  else (st, RecvOut.master p)

/-- Fold `recvChain` over a list of incoming packets, collecting the
outcomes in order. -/
def recvProcessAll (fill : Nat) : RecvState → List RtpPacket → RecvState × List RecvOut
  | st, [] => (st, [])
  | st, p :: ps =>
    let r := recvChain fill st p
    let rest := recvProcessAll fill r.1 ps
    (rest.1, r.2 :: rest.2)

/-- Number of outcomes that forwarded a reconstructed packet. -/
def countRecon : List RecvOut → Nat
  | [] => 0
  | RecvOut.reconstructed _ :: os => countRecon os + 1
  | RecvOut.dropped :: os => countRecon os
  | RecvOut.master _ :: os => countRecon os

/-! ## Sender (gstrtprtxsend.c) -/

/-- `BufferQueueItem`. -/
structure QItem where
  seqnum : Nat
  timestamp : Nat
  buffer : RtpPacket
  deriving DecidableEq, Repr

def defaultQItem : QItem := { seqnum := 0, timestamp := 0, buffer := ⟨[], [], [], []⟩ }

/-- `SSRCRtxData`. -/
structure SsrcData where
  rtxSsrc : Nat
  nextSeqnum : Nat
  clockRate : Int
  queue : List QItem
  deriving DecidableEq, Repr

def defaultSsrcData : SsrcData := { rtxSsrc := 0, nextSeqnum := 0, clockRate := 0, queue := [] }

/-- State of a `GstRtpRtxSend` element. -/
structure SendState where
  /-- `ssrc_data`: master ssrc to its `SSRCRtxData`. -/
  ssrcData : List (Nat × SsrcData)
  /-- `rtx_ssrcs`: rtx ssrc back to master ssrc. -/
  rtxSsrcs : List (Nat × Nat)
  /-- `external_ssrc_map` (the `ssrc-map` property), when set. -/
  externalSsrcMap : Option (List (Nat × Nat))
  /-- `rtx_pt_map`: live map, original payload type to rtx payload type. -/
  rtxPtMap : List (Nat × Nat)
  /-- `pending_rtx_pt_map` as configured: pairs (original pt, rtx pt). -/
  pendingPtMap : List (Nat × Nat)
  /-- `rtx_pt_map_changed`. -/
  ptMapChanged : Bool
  /-- `pending`: buffers awaiting retransmission, head pushed first. -/
  pending : List RtpPacket
  /-- `max_size_time` (ms, 0 = unlimited). -/
  maxSizeTime : Nat
  /-- `max_size_packets` (0 = unlimited, default 100). -/
  maxSizePackets : Nat
  /-- `num_rtx_requests`. -/
  numReq : Nat
  /-- `num_rtx_packets`. -/
  numPkt : Nat
  deriving DecidableEq, Repr

/-- A fresh element (gst_rtp_rtx_send_init). -/
def initSendState : SendState :=
  { ssrcData := [], rtxSsrcs := [], externalSsrcMap := none, rtxPtMap := [],
    pendingPtMap := [], ptMapChanged := false, pending := [],
    maxSizeTime := 0, maxSizePackets := 100, numReq := 0, numPkt := 0 }

/-- An ssrc is unusable as a fresh rtx ssrc when it is already a key of
either map (the condition of the `while` loop in
`gst_rtp_rtx_send_choose_ssrc`). -/
def ssrcTaken (st : SendState) (s : Nat) : Bool :=
  acontains st.ssrcData s || acontains st.rtxSsrcs s

/-- The redraw loop of `gst_rtp_rtx_send_choose_ssrc`: keep drawing
`g_random_int ()` while the candidate is taken. The random source is
the supplied list of draws; `none` means the loop would have needed
more draws than supplied. -/
def chooseLoop (taken : Nat → Bool) (cand : Nat) : List Nat → Option (Nat × List Nat)
  | [] => if taken cand then none else some (cand, [])
  | r :: rest => if taken cand then chooseLoop taken r rest else some (cand, r :: rest)

/-- `gst_rtp_rtx_send_choose_ssrc`: first candidate is `choice` when
`consider_choice`, otherwise a fresh draw. -/
def chooseSsrc (st : SendState) (choice : Nat) (consider : Bool) (rs : List Nat) :
    Option (Nat × List Nat) :=
  if consider then chooseLoop (ssrcTaken st) choice rs
  else
    match rs with
    | [] => none
    | r :: rest => chooseLoop (ssrcTaken st) r rest

/-- `ssrc_rtx_data_new`: a fresh per-SSRC entry. `next_seqnum` is
`g_random_int_range (0, G_MAXUINT16)`, which by the glib contract is a
uniform value in `[0, 65535)` — modeled as the supplied draw mod 65535;
`clock_rate` starts at 0 (`g_new0`) and the history queue is empty. -/
def ssrcRtxDataNew (rtxSsrc draw : Nat) : SsrcData :=
  { rtxSsrc := rtxSsrc, nextSeqnum := draw % 65535, clockRate := 0, queue := [] }

/-- `gst_rtp_rtx_send_get_ssrc_data`: look up the per-SSRC entry,
creating it when absent. Creation takes the preferred rtx ssrc from the
`ssrc-map` structure when one is present, runs `choose_ssrc`, builds the
entry with `ssrc_rtx_data_new` (consuming one more draw for its
`next_seqnum`), and records both map directions. -/
def getSsrcData (st : SendState) (ssrc : Nat) (rs : List Nat) :
    Option (SendState × List Nat) :=
  if acontains st.ssrcData ssrc then some (st, rs)
  else
    let pref := st.externalSsrcMap.bind (fun m => alookup m ssrc)
    let res := match pref with
      | some v => chooseSsrc st v true rs
      | none => chooseSsrc st 0 false rs
    match res with
    | none => none
    | some (r, rs1) =>
      match rs1 with
      | [] => none
      | d :: rs2 =>
        some ({ st with
                ssrcData := ainsert st.ssrcData ssrc (ssrcRtxDataNew r d),
                rtxSsrcs := ainsert st.rtxSsrcs r ssrc }, rs2)

/-- Replace the `SSRCRtxData` stored for a master ssrc. -/
def updateData (st : SendState) (ssrc : Nat) (d : SsrcData) : SendState :=
  { st with ssrcData := ainsert st.ssrcData ssrc d }

/-- `gst_util_uint64_scale_int (val, num, denom)`: guarded by
`g_return_val_if_fail (denom > 0, G_MAXUINT64)` and
`g_return_val_if_fail (num >= 0, G_MAXUINT64)` before computing the
exact `val * num / denom`. -/
def gstUtilUint64ScaleInt (val : Nat) (num denom : Int) : Nat :=
  if denom ≤ 0 then 18446744073709551615
  else if num < 0 then 18446744073709551615
  else val * num.toNat / denom.toNat

/-- `gst_rtp_rtx_send_get_ts_diff`: 0 when the first and last queue
items coincide, otherwise the 32-bit wrapped timestamp span scaled to
milliseconds by the clock rate, cast back to `guint32`. -/
def getTsDiff (clockRate : Int) (q : List QItem) : Nat :=
  match q with
  | [] => 0
  | [_] => 0
  | x :: xs =>
    let highTs := ((xs.getLast?).getD x).timestamp
    let lowTs := x.timestamp
    let result := if highTs ≥ lowTs then highTs - lowTs else highTs + 4294967296 - lowTs
    gstUtilUint64ScaleInt result 1000 clockRate % 4294967296

/-- The count-bound eviction loop of `gst_rtp_rtx_send_chain`:
`while (g_sequence_get_length (queue) > max_size_packets) remove begin`. -/
def evictCountLoop (maxP : Nat) : List QItem → List QItem
  | [] => []
  | x :: xs => if xs.length + 1 > maxP then evictCountLoop maxP xs else x :: xs

/-- The time-bound eviction loop of `gst_rtp_rtx_send_chain`:
`while (gst_rtp_rtx_send_get_ts_diff (data) > max_size_time) remove begin`. -/
def evictTimeLoop (maxT : Nat) (clockRate : Int) : List QItem → List QItem
  | [] => []
  | x :: xs =>
    if getTsDiff clockRate (x :: xs) > maxT then evictTimeLoop maxT clockRate xs
    else x :: xs

/-- Sender PT-map refresh (`structure_to_hash_table`): inserts
`hash[field] = value`, original pt as key, rtx pt as value. -/
def sendPtRefresh (st : SendState) : SendState :=
  if st.ptMapChanged then
    { st with rtxPtMap := st.pendingPtMap.foldl (fun h pr => ainsert h pr.1 pr.2) [],
              ptMapChanged := false }
  else st

/-- The history-append part of `gst_rtp_rtx_send_chain` (run when the
payload type is in the live map): ensure the entry exists, append
`{seqnum, rtptime, buffer}`, then run the two eviction loops, each
guarded by its non-zero property. -/
def storeBuffer (st : SendState) (ssrc seqnum rtptime : Nat) (buf : RtpPacket)
    (rs : List Nat) : Option (SendState × List Nat) :=
  match getSsrcData st ssrc rs with
  | none => none
  | some (st1, rs1) =>
    let d := (alookup st1.ssrcData ssrc).getD defaultSsrcData
    let q1 := d.queue ++ [{ seqnum := seqnum, timestamp := rtptime, buffer := buf }]
    let q2 := if st1.maxSizePackets ≠ 0 then evictCountLoop st1.maxSizePackets q1 else q1
    let q3 := if st1.maxSizeTime ≠ 0 then evictTimeLoop st1.maxSizeTime d.clockRate q2 else q2
    some (updateData st1 ssrc { d with queue := q3 }, rs1)

/-- `_gst_rtp_rtx_buffer_new`: build the RFC 4588 retransmission packet
for a stored original buffer — same fixed header and extension, payload
prefixed with the big-endian OSN, no padding — then overwrite SSRC with
the entry's rtx ssrc, the seqnum with the post-incremented
`next_seqnum`, the payload type with the mapped rtx pt (or
`original_pt + 1` when the mapped value is below 96), and clear the
padding flag. -/
def rtxBufferNew (st : SendState) (buffer : RtpPacket) (rs : List Nat) :
    Option (SendState × RtpPacket × List Nat) :=
  match getSsrcData st buffer.getSsrc rs with
  | none => none
  | some (st1, rs1) =>
    let d := (alookup st1.ssrcData buffer.getSsrc).getD defaultSsrcData
    let st2 := updateData st1 buffer.getSsrc { d with nextSeqnum := (d.nextSeqnum + 1) % 65536 }
    let fmtp0 := (alookup st2.rtxPtMap buffer.getPt).getD 0
    let fmtp := if fmtp0 < 96 then (buffer.getPt + 1) % 256 else fmtp0
    let base : RtpPacket :=
      { header := buffer.header, ext := buffer.ext,
        payload := (buffer.getSeq / 256 % 256) :: (buffer.getSeq % 256) :: buffer.payload,
        padding := [] }
    some (st2, (((base.setSsrc d.rtxSsrc).setSeq d.nextSeqnum).setPt fmtp).clearPaddingFlag, rs1)

/-- The emission walk over the detached pending queue
(`g_queue_foreach (pending, do_push, rtx)`): build and push an rtx
packet for each stored buffer in order. -/
def emitAll : SendState → List RtpPacket → List Nat →
    Option (SendState × List RtpPacket × List Nat)
  | st, [], rs => some (st, [], rs)
  | st, b :: bs, rs =>
    match rtxBufferNew st b rs with
    | none => none
    | some (st1, out, rs1) =>
      match emitAll st1 bs rs1 with
      | none => none
      | some (st2, outs, rs2) => some (st2, out :: outs, rs2)

/-- `gst_rtp_rtx_send_chain`: store the packet in the history when its
payload type is mapped, detach the pending queue (crediting
`num_rtx_packets` for every detached buffer), emit an rtx packet per
detached buffer, then push the original packet. The returned list is
everything pushed downstream, in order. -/
def senderChain (st0 : SendState) (pkt : RtpPacket) (rs : List Nat) :
    Option (SendState × List RtpPacket) :=
  let st := sendPtRefresh st0
  let stored :=
    if acontains st.rtxPtMap pkt.getPt then
      storeBuffer st pkt.getSsrc pkt.getSeq pkt.getTimestamp pkt rs
    else some (st, rs)
  match stored with
  | none => none
  | some (st1, rs1) =>
    let detached := st1.pending
    let st2 :=
      if detached.length > 0 then
        { st1 with pending := [], numPkt := st1.numPkt + detached.length }
      else st1
    match emitAll st2 detached rs1 with
    | none => none
    | some (st3, outs, _) => some (st3, outs ++ [pkt])

/-- Model of `g_sequence_lookup` with `buffer_queue_items_cmp`: the
GSequence is a balanced tree searched by comparing
`cmp (tree_item, search_item)`; on a sequence that is sorted for the
comparator this search is binary search, descending left when the
probed item compares greater than the key and right when smaller. -/
def bsearchIdx (seqs : List QItem) (key : Nat) (lo hi : Nat) : Option QItem :=
  if h : lo < hi then
    let mid := (lo + hi) / 2
    let c := itemsCmp (seqs.getD mid defaultQItem).seqnum key
    if c = 0 then some (seqs.getD mid defaultQItem)
    else if c < 0 then bsearchIdx seqs key (mid + 1) hi
    else bsearchIdx seqs key lo mid
  else none
termination_by hi - lo
decreasing_by
  · omega
  · omega

/-- Look up a seqnum in a history queue. -/
def seqLookup (q : List QItem) (key : Nat) : Option QItem :=
  bsearchIdx q key 0 q.length

/-- `gst_rtp_rtx_send_src_event` on a `GstRTPRetransmissionRequest`
with fields `(seqnum, ssrc)`. Returns the new state, the handler's
return value (`res`: the branch always unrefs the event and returns
`TRUE`), and whether `gst_pad_event_default` was called (never, in this
branch). Only when the ssrc is a known master does it count the
request, search the history with the seqnum truncated to 16 bits, and
on a hit append a reference to the stored buffer to the pending queue. -/
def senderReqEvent (st : SendState) (seqnum ssrc : Nat) : SendState × Bool × Bool :=
  if acontains st.ssrcData ssrc then
    let st1 := { st with numReq := st.numReq + 1 }
    let d := (alookup st1.ssrcData ssrc).getD defaultSsrcData
    match seqLookup d.queue (seqnum % 65536) with
    | some item => ({ st1 with pending := st1.pending ++ [item.buffer] }, true, false)
    | none => (st1, true, false)
  else (st, true, false)

/-- `gst_rtp_rtx_send_src_event` on a `GstRTPCollision` with field
`ssrc`. Returns the new state and whether the event was forwarded
upstream. An rtx-ssrc collision rotates that entry's rtx ssrc (fresh
ssrc chosen while the old maps are still in place) and consumes the
event; a master-ssrc collision drops the whole entry and forwards; any
other ssrc just forwards. -/
def senderCollision (st : SendState) (ssrc : Nat) (rs : List Nat) :
    Option (SendState × Bool) :=
  if acontains st.rtxSsrcs ssrc then
    let master := (alookup st.rtxSsrcs ssrc).getD 0
    match getSsrcData st master rs with
    | none => none
    | some (st1, rs1) =>
      let d := (alookup st1.ssrcData master).getD defaultSsrcData
      match chooseSsrc st1 0 false rs1 with
      | none => none
      | some (r2, _) =>
        some ({ st1 with
                ssrcData := ainsert st1.ssrcData master { d with rtxSsrc := r2 },
                rtxSsrcs := ainsert (aremove st1.rtxSsrcs ssrc) r2 master }, false)
  else if acontains st.ssrcData ssrc then
    let d := (alookup st.ssrcData ssrc).getD defaultSsrcData
    some ({ st with rtxSsrcs := aremove st.rtxSsrcs d.rtxSsrc,
                    ssrcData := aremove st.ssrcData ssrc }, true)
  else some (st, true)

/-- `gst_rtp_rtx_send_sink_event` on a caps event: ensure the entry for
the advertised ssrc exists and record the clock rate when the caps
carry one (`gst_structure_get_int` leaves the field untouched
otherwise). -/
def senderCaps (st : SendState) (ssrc : Nat) (clockRate : Option Int) (rs : List Nat) :
    Option SendState :=
  match getSsrcData st ssrc rs with
  | none => none
  | some (st1, _) =>
    match clockRate with
    | some c =>
      let d := (alookup st1.ssrcData ssrc).getD defaultSsrcData
      some (updateData st1 ssrc { d with clockRate := c })
    | none => some st1

/-- `gst_rtp_rtx_send_reset`. -/
def senderReset (st : SendState) : SendState :=
  { st with pending := [], ssrcData := [], rtxSsrcs := [], numReq := 0, numPkt := 0 }

/-- The operations that can reach a sender element. -/
inductive SendOp
  | chain (pkt : RtpPacket) (rs : List Nat)
  | request (seqnum ssrc : Nat)
  | collision (ssrc : Nat) (rs : List Nat)
  | caps (ssrc : Nat) (clockRate : Option Int) (rs : List Nat)
  | setSsrcMap (m : List (Nat × Nat))
  | setPtMap (m : List (Nat × Nat))
  | setMaxSizeTime (n : Nat)
  | setMaxSizePackets (n : Nat)
  | reset

/-- One sender operation. -/
def sendStep (st : SendState) : SendOp → Option SendState
  | SendOp.chain pkt rs => (senderChain st pkt rs).map Prod.fst
  | SendOp.request seqnum ssrc => some (senderReqEvent st seqnum ssrc).1
  | SendOp.collision ssrc rs => (senderCollision st ssrc rs).map Prod.fst
  | SendOp.caps ssrc c rs => senderCaps st ssrc c rs
  | SendOp.setSsrcMap m => some { st with externalSsrcMap := some m }
  | SendOp.setPtMap m => some { st with pendingPtMap := m, ptMapChanged := true }
  | SendOp.setMaxSizeTime n => some { st with maxSizeTime := n }
  | SendOp.setMaxSizePackets n => some { st with maxSizePackets := n }
  | SendOp.reset => some (senderReset st)

/-- Run a list of sender operations. -/
def sendSteps : SendState → List SendOp → Option SendState
  | st, [] => some st
  | st, op :: ops =>
    match sendStep st op with
    | none => none
    | some st1 => sendSteps st1 ops

/-! ## Derived notions and concrete fixtures -/

/-- Nondecreasing under `buffer_queue_items_cmp`, the sense in which a
`GSequence` sorted by that comparator is ordered. -/
def isSortedSerial : List QItem → Bool
  | [] => true
  | [_] => true
  | a :: b :: rest => decide (itemsCmp a.seqnum b.seqnum ≤ 0) && isSortedSerial (b :: rest)

/-- Offset of a 16-bit seqnum from a base: `(x - base) mod 2^16`. -/
def serialOff (base x : Nat) : Nat := (x % 65536 + 65536 - base % 65536) % 65536

/-- The two sender SSRC maps are mutually inverse: every entry's rtx
ssrc points back to its master in `rtx_ssrcs`, every `rtx_ssrcs` pair
comes from an entry, and both key lists are duplicate-free. -/
def SendInv (st : SendState) : Prop :=
  (akeys st.ssrcData).Nodup ∧ (akeys st.rtxSsrcs).Nodup ∧
  (∀ m d, alookup st.ssrcData m = some d → alookup st.rtxSsrcs d.rtxSsrc = some m) ∧
  (∀ r m, alookup st.rtxSsrcs r = some m →
    ∃ d, alookup st.ssrcData m = some d ∧ d.rtxSsrc = r)

/-- The packet `_gst_rtp_rtx_buffer_new` constructs for a stored buffer
`b` when the per-SSRC entry `d` already exists (so no randomness is
consumed): same header and extension, OSN-prefixed payload, no padding,
then SSRC, seqnum, payload type overwritten and the padding flag
cleared. -/
def rtxPacketFor (st : SendState) (b : RtpPacket) (d : SsrcData) : RtpPacket :=
  ((((RtpPacket.mk b.header b.ext
        ((b.getSeq / 256 % 256) :: (b.getSeq % 256) :: b.payload) []).setSsrc
      d.rtxSsrc).setSeq d.nextSeqnum).setPt
    (if (alookup st.rtxPtMap b.getPt).getD 0 < 96 then (b.getPt + 1) % 256
     else (alookup st.rtxPtMap b.getPt).getD 0)).clearPaddingFlag

/-- A parsed test packet with the given fields, a 12-byte fixed header,
no CSRCs and no extension. -/
def mkPktP (ssrc seq pt ts : Nat) (payload padding : List Nat) : RtpPacket :=
  { header := [if padding.isEmpty then 128 else 160, pt % 128, seq / 256 % 256, seq % 256,
               ts / 16777216 % 256, ts / 65536 % 256, ts / 256 % 256, ts % 256,
               ssrc / 16777216 % 256, ssrc / 65536 % 256, ssrc / 256 % 256, ssrc % 256],
    ext := [], payload := payload, padding := padding }

/-- A padding-free test packet. -/
def mkPkt (ssrc seq pt ts : Nat) (payload : List Nat) : RtpPacket :=
  mkPktP ssrc seq pt ts payload []

/-- Receiver with one outstanding request: seqnum 50 for master 5. -/
def c6State : RecvState := { initRecvState with reqTable := [(50, 5)] }

/-- Receiver that already associated rtx ssrc 48059 with master 43690. -/
def c7State : RecvState := { initRecvState with
  rtxPtMap := [(97, 96)], assoc := [(48059, 43690), (43690, 48059)] }

/-- An RTX packet on the already-associated stream, OSN 50, payload byte 88. -/
def c7Pkt : RtpPacket := mkPkt 48059 0 97 0 [0, 50, 88]

/-- Receiver with rtx pt 97 mapped and a pending request for seqnum 1280
(the value the out-of-bounds OSN read of the short packet produces). -/
def c3State : RecvState := { initRecvState with
  rtxPtMap := [(97, 96)], reqTable := [(1280, 7)] }

/-- An RTX-classified packet whose payload is a single byte. -/
def c3Pkt : RtpPacket := mkPkt 48059 0 97 0 [5]

/-- An RTX packet with OSN 1280 and payload byte 88, matching the
request stored in `c3State`. -/
def c7AssocPkt : RtpPacket := mkPkt 48059 0 97 0 [5, 0, 88]

/-- Sender master packets for the clock-rate-zero scenario. -/
def c4Pkt1 : RtpPacket := mkPkt 10 1 96 1000 []

def c4Pkt2 : RtpPacket := mkPkt 10 2 96 2000 []

/-- Sender with max-size-time 1 ms and an entry for master 10 whose
clock rate was never learned (0) and whose history holds one packet. -/
def c4State : SendState := { initSendState with
  rtxPtMap := [(96, 97)], maxSizeTime := 1,
  ssrcData := [(10, { rtxSsrc := 99, nextSeqnum := 0, clockRate := 0,
                      queue := [{ seqnum := 1, timestamp := 1000, buffer := c4Pkt1 }] })],
  rtxSsrcs := [(99, 10)] }

/-- Sender whose `ssrc-map` prefers rtx ssrc 7 for master 7. -/
def c5State : SendState := { initSendState with externalSsrcMap := some [(7, 7)] }

/-- Two RTX packets differing only in the first padding byte. -/
def c1PktA : RtpPacket := mkPktP 48059 0 97 0 [0, 2, 88] [170, 2]

def c1PktB : RtpPacket := mkPktP 48059 0 97 0 [0, 2, 88] [9, 2]

/-- The stored original packet of the duplicate-request scenario. -/
def c10Buf : RtpPacket := mkPkt 1 5 96 1000 [42]

/-- The history item holding `c10Buf` under seqnum 5. -/
def c10Item : QItem := { seqnum := 5, timestamp := 1000, buffer := c10Buf }

/-- The per-ssrc entry for master 1: rtx ssrc 2, next rtx seqnum 0. -/
def c10Data : SsrcData :=
  { rtxSsrc := 2, nextSeqnum := 0, clockRate := 0, queue := [c10Item] }

/-- Sender holding `c10Buf` (seqnum 5) in the history of master 1, whose
rtx ssrc is 2 and whose next rtx seqnum is 0. -/
def c10State : SendState := { initSendState with
  rtxPtMap := [(96, 97)],
  ssrcData := [(1, c10Data)],
  rtxSsrcs := [(2, 1)] }

/-- The master packet whose ingress flushes the pending queue. -/
def c10Pkt : RtpPacket := mkPkt 1 6 96 2000 [43]

/-- `c10State` after 65537 identical requests for (5, 1). -/
def c10StateN : SendState :=
  { c10State with
    numReq := c10State.numReq + 65537
    pending := c10State.pending ++ List.replicate 65537 c10Buf }

/-- `c10State` after 2 identical requests for (5, 1). -/
def c10StateW : SendState :=
  { c10State with
    numReq := c10State.numReq + 2
    pending := c10State.pending ++ List.replicate 2 c10Buf }

/-- Sender with an empty history for master 1 and pt 96 mapped. -/
def c2State : SendState := { initSendState with
  rtxPtMap := [(96, 97)],
  ssrcData := [(1, { rtxSsrc := 2, nextSeqnum := 0, clockRate := 0, queue := [] })],
  rtxSsrcs := [(2, 1)] }

/-! ## Library lemmas for the association lists -/

theorem alookup_ainsert_self {α : Type} (l : List (Nat × α)) (k : Nat) (v : α) :
    alookup (ainsert l k v) k = some v := by
  induction l with
  | nil => simp [ainsert, alookup]
  | cons hd tl ih =>
    obtain ⟨k1, v1⟩ := hd
    by_cases h : k1 = k
    · simp [ainsert, alookup, h]
    · simp [ainsert, alookup, h, ih]

theorem alookup_ainsert_ne {α : Type} (l : List (Nat × α)) (k k2 : Nat) (v : α)
    (h : k ≠ k2) : alookup (ainsert l k v) k2 = alookup l k2 := by
  induction l with
  | nil => simp [ainsert, alookup, h]
  | cons hd tl ih =>
    obtain ⟨k1, v1⟩ := hd
    by_cases h1 : k1 = k
    · subst h1
      simp [ainsert, alookup, h]
    · simp only [ainsert, if_neg h1, alookup]
      by_cases h2 : k1 = k2 <;> simp [h2, ih]

theorem alookup_none_of_not_mem {α : Type} (l : List (Nat × α)) (k : Nat)
    (h : k ∉ akeys l) : alookup l k = none := by
  induction l with
  | nil => simp [alookup]
  | cons hd tl ih =>
    obtain ⟨k1, v1⟩ := hd
    simp only [akeys, List.map_cons, List.mem_cons, not_or] at h
    simp only [alookup]
    rw [if_neg (fun hh => h.1 hh.symm)]
    exact ih h.2

theorem alookup_mem_akeys {α : Type} (l : List (Nat × α)) (k : Nat) (v : α)
    (h : alookup l k = some v) : k ∈ akeys l := by
  induction l with
  | nil => simp [alookup] at h
  | cons hd tl ih =>
    obtain ⟨k1, v1⟩ := hd
    simp only [alookup] at h
    by_cases h1 : k1 = k
    · simp [akeys, h1]
    · rw [if_neg h1] at h
      simp only [akeys, List.map_cons, List.mem_cons]
      exact Or.inr (ih h)

theorem mem_akeys_aremove {α : Type} (l : List (Nat × α)) (k k2 : Nat)
    (h : k2 ∈ akeys (aremove l k)) : k2 ∈ akeys l := by
  induction l with
  | nil => simpa [aremove] using h
  | cons hd tl ih =>
    obtain ⟨k1, v1⟩ := hd
    by_cases h1 : k1 = k
    · simp only [aremove, if_pos h1] at h
      simp only [akeys, List.map_cons, List.mem_cons]
      exact Or.inr h
    · simp only [aremove, if_neg h1, akeys, List.map_cons, List.mem_cons] at h ⊢
      rcases h with h | h
      · exact Or.inl h
      · exact Or.inr (ih h)

theorem alookup_aremove_self {α : Type} (l : List (Nat × α)) (k : Nat)
    (hnd : (akeys l).Nodup) : alookup (aremove l k) k = none := by
  induction l with
  | nil => simp [aremove, alookup]
  | cons hd tl ih =>
    obtain ⟨k1, v1⟩ := hd
    simp only [akeys, List.map_cons, List.nodup_cons] at hnd
    by_cases h : k1 = k
    · subst h
      simp only [aremove, if_pos rfl]
      exact alookup_none_of_not_mem tl k1 hnd.1
    · simp only [aremove, if_neg h, alookup, if_neg h]
      exact ih hnd.2

theorem alookup_aremove_ne {α : Type} (l : List (Nat × α)) (k k2 : Nat)
    (h : k ≠ k2) : alookup (aremove l k) k2 = alookup l k2 := by
  induction l with
  | nil => simp [aremove, alookup]
  | cons hd tl ih =>
    obtain ⟨k1, v1⟩ := hd
    by_cases h1 : k1 = k
    · subst h1
      simp [aremove, alookup, h]
    · simp only [aremove, if_neg h1, alookup]
      by_cases h2 : k1 = k2
      · simp [h2]
      · simp [h2, ih]

theorem acontains_iff {α : Type} (l : List (Nat × α)) (k : Nat) :
    acontains l k = true ↔ ∃ v, alookup l k = some v := by
  simp [acontains, Option.isSome_iff_exists]

theorem mem_akeys_ainsert {α : Type} (l : List (Nat × α)) (k k2 : Nat) (v : α)
    (h : k2 ∈ akeys (ainsert l k v)) : k2 ∈ akeys l ∨ k2 = k := by
  induction l with
  | nil => simpa [ainsert, akeys] using h
  | cons hd tl ih =>
    obtain ⟨k1, v1⟩ := hd
    by_cases h1 : k1 = k
    · subst h1
      simp only [ainsert, if_true, eq_self_iff_true, if_pos, akeys, List.map_cons,
        List.mem_cons] at h ⊢
      rcases h with h | h
      · exact Or.inr h
      · exact Or.inl (Or.inr h)
    · simp only [ainsert, if_neg h1, akeys, List.map_cons, List.mem_cons] at h ⊢
      rcases h with h | h
      · exact Or.inl (Or.inl h)
      · rcases ih h with h2 | h2
        · exact Or.inl (Or.inr h2)
        · exact Or.inr h2

theorem akeys_ainsert_nodup {α : Type} (l : List (Nat × α)) (k : Nat) (v : α)
    (hnd : (akeys l).Nodup) : (akeys (ainsert l k v)).Nodup := by
  induction l with
  | nil => simp [ainsert, akeys]
  | cons hd tl ih =>
    obtain ⟨k1, v1⟩ := hd
    simp only [akeys, List.map_cons, List.nodup_cons] at hnd
    by_cases h : k1 = k
    · subst h
      simp only [ainsert, if_true, eq_self_iff_true, if_pos, akeys, List.map_cons,
        List.nodup_cons]
      exact hnd
    · simp only [ainsert, if_neg h, akeys, List.map_cons, List.nodup_cons]
      refine ⟨fun hmem => ?_, ih hnd.2⟩
      rcases mem_akeys_ainsert tl k k1 v hmem with h2 | h2
      · exact hnd.1 h2
      · exact h h2

theorem akeys_aremove_sublist {α : Type} (l : List (Nat × α)) (k : Nat) :
    (akeys (aremove l k)).Sublist (akeys l) := by
  induction l with
  | nil => simp [aremove]
  | cons hd tl ih =>
    obtain ⟨k1, v1⟩ := hd
    by_cases h : k1 = k
    · simp only [aremove, if_pos h, akeys, List.map_cons]
      exact List.sublist_cons_self _ _
    · simp only [aremove, if_neg h, akeys, List.map_cons]
      exact ih.cons₂ k1

theorem akeys_aremove_nodup {α : Type} (l : List (Nat × α)) (k : Nat)
    (hnd : (akeys l).Nodup) : (akeys (aremove l k)).Nodup :=
  (akeys_aremove_sublist l k).nodup hnd

/-! ## Byte-surgery lemmas -/

theorem getD_set_self (l : List Nat) (i v : Nat) (h : i < l.length) :
    (l.set i v).getD i 0 = v := by
  induction l generalizing i with
  | nil => simp at h
  | cons a t ih =>
    cases i with
    | zero => simp
    | succ n => simpa using ih n (by simpa using h)

theorem getD_set_other (l : List Nat) (i j v : Nat) (h : i ≠ j) :
    (l.set i v).getD j 0 = l.getD j 0 := by
  induction l generalizing i j with
  | nil => simp
  | cons a t ih =>
    cases i with
    | zero =>
      cases j with
      | zero => exact absurd rfl h
      | succ m => simp
    | succ n =>
      cases j with
      | zero => simp
      | succ m => simpa using ih n m (fun hh => h (by rw [hh]))

theorem readBE16_writeBE16 (l : List Nat) (off v : Nat) (hv : v < 65536)
    (hlen : off + 2 ≤ l.length) : readBE16 (writeBE16 l off v) off = v := by
  unfold readBE16 writeBE16
  rw [getD_set_other _ (off + 1) off _ (by omega), getD_set_self _ _ _ (by (try simp only [List.length_set]); omega),
    getD_set_self _ _ _ (by (try simp only [List.length_set]); omega)]
  omega

theorem getD_writeBE16_other (l : List Nat) (off v j : Nat)
    (h1 : j ≠ off) (h2 : j ≠ off + 1) :
    (writeBE16 l off v).getD j 0 = l.getD j 0 := by
  unfold writeBE16
  rw [getD_set_other _ _ _ _ (fun hh => h2 hh.symm),
    getD_set_other _ _ _ _ (fun hh => h1 hh.symm)]

theorem readBE32_writeBE32 (l : List Nat) (off v : Nat) (hv : v < 4294967296)
    (hlen : off + 4 ≤ l.length) : readBE32 (writeBE32 l off v) off = v := by
  unfold readBE32 writeBE32
  rw [getD_set_other _ (off + 3) off _ (by omega),
    getD_set_other _ (off + 2) off _ (by omega),
    getD_set_other _ (off + 1) off _ (by omega),
    getD_set_self _ _ _ (by (try simp only [List.length_set]); omega),
    getD_set_other _ (off + 3) (off + 1) _ (by omega),
    getD_set_other _ (off + 2) (off + 1) _ (by omega),
    getD_set_self _ _ _ (by (try simp only [List.length_set]); omega),
    getD_set_other _ (off + 3) (off + 2) _ (by omega),
    getD_set_self _ _ _ (by (try simp only [List.length_set]); omega),
    getD_set_self _ _ _ (by (try simp only [List.length_set]); omega)]
  omega

theorem getD_writeBE32_other (l : List Nat) (off v j : Nat)
    (h1 : j ≠ off) (h2 : j ≠ off + 1) (h3 : j ≠ off + 2) (h4 : j ≠ off + 3) :
    (writeBE32 l off v).getD j 0 = l.getD j 0 := by
  unfold writeBE32
  rw [getD_set_other _ _ _ _ (fun hh => h4 hh.symm),
    getD_set_other _ _ _ _ (fun hh => h3 hh.symm),
    getD_set_other _ _ _ _ (fun hh => h2 hh.symm),
    getD_set_other _ _ _ _ (fun hh => h1 hh.symm)]

theorem RtpPacket.payload_setSsrc (p : RtpPacket) (v : Nat) :
    (p.setSsrc v).payload = p.payload := rfl

theorem RtpPacket.payload_setSeq (p : RtpPacket) (v : Nat) :
    (p.setSeq v).payload = p.payload := rfl

theorem RtpPacket.payload_setPt (p : RtpPacket) (v : Nat) :
    (p.setPt v).payload = p.payload := by
  unfold RtpPacket.setPt
  split <;> rfl

theorem RtpPacket.payload_clearPaddingFlag (p : RtpPacket) :
    p.clearPaddingFlag.payload = p.payload := rfl

theorem RtpPacket.ext_setSsrc (p : RtpPacket) (v : Nat) :
    (p.setSsrc v).ext = p.ext := rfl

theorem RtpPacket.ext_setSeq (p : RtpPacket) (v : Nat) :
    (p.setSeq v).ext = p.ext := rfl

theorem RtpPacket.ext_setPt (p : RtpPacket) (v : Nat) :
    (p.setPt v).ext = p.ext := by
  unfold RtpPacket.setPt
  split <;> rfl

theorem RtpPacket.padding_setSsrc (p : RtpPacket) (v : Nat) :
    (p.setSsrc v).padding = p.padding := rfl

theorem RtpPacket.padding_setSeq (p : RtpPacket) (v : Nat) :
    (p.setSeq v).padding = p.padding := rfl

theorem RtpPacket.padding_setPt (p : RtpPacket) (v : Nat) :
    (p.setPt v).padding = p.padding := by
  unfold RtpPacket.setPt
  split <;> rfl

theorem readBE16_writeBE16_mod (l : List Nat) (off v : Nat)
    (hlen : off + 2 ≤ l.length) : readBE16 (writeBE16 l off v) off = v % 65536 := by
  unfold readBE16 writeBE16
  rw [getD_set_other _ (off + 1) off _ (by omega),
    getD_set_self _ _ _ (by omega),
    getD_set_self _ _ _ (by simp only [List.length_set]; omega)]
  omega

theorem RtpPacket.headerLength_setSsrc (p : RtpPacket) (v : Nat) :
    (p.setSsrc v).header.length = p.header.length := by
  simp [RtpPacket.setSsrc, writeBE32]

theorem RtpPacket.headerLength_setSeq (p : RtpPacket) (v : Nat) :
    (p.setSeq v).header.length = p.header.length := by
  simp [RtpPacket.setSeq, writeBE16]

theorem RtpPacket.headerLength_setPt (p : RtpPacket) (v : Nat) :
    (p.setPt v).header.length = p.header.length := by
  unfold RtpPacket.setPt
  split <;> simp

theorem RtpPacket.headerLength_clearPaddingFlag (p : RtpPacket) :
    p.clearPaddingFlag.header.length = p.header.length := by
  simp [RtpPacket.clearPaddingFlag]

theorem RtpPacket.getSeq_clearPaddingFlag (p : RtpPacket) :
    p.clearPaddingFlag.getSeq = p.getSeq := by
  unfold RtpPacket.getSeq RtpPacket.clearPaddingFlag
  unfold readBE16
  rw [getD_set_other _ 0 2 _ (by omega), getD_set_other _ 0 3 _ (by omega)]

theorem RtpPacket.getSeq_setPt (p : RtpPacket) (v : Nat) :
    (p.setPt v).getSeq = p.getSeq := by
  unfold RtpPacket.setPt
  split
  · unfold RtpPacket.getSeq readBE16
    simp only
    rw [getD_set_other _ 1 2 _ (by omega), getD_set_other _ 1 3 _ (by omega)]
  · rfl

theorem RtpPacket.getSeq_setSeq (p : RtpPacket) (v : Nat) (h : 4 ≤ p.header.length) :
    (p.setSeq v).getSeq = v % 65536 := by
  unfold RtpPacket.setSeq RtpPacket.getSeq
  simp only
  exact readBE16_writeBE16_mod p.header 2 v (by omega)

/-! ## Claim C9 -/

/-- Claim C9: every `GstRTPRetransmissionRequest` event on the sender
src pad is consumed — the handler returns `TRUE` and never calls
`gst_pad_event_default` — and when the requested ssrc names no known
master the whole state (counters and pending queue included) is left
unchanged. -/
theorem c9_request_always_consumed (st : SendState) (seqnum ssrc : Nat) :
    (senderReqEvent st seqnum ssrc).2.1 = true ∧
    (senderReqEvent st seqnum ssrc).2.2 = false ∧
    (acontains st.ssrcData ssrc = false → (senderReqEvent st seqnum ssrc).1 = st) := by
  unfold senderReqEvent
  by_cases h : acontains st.ssrcData ssrc
  · simp only [h, if_true]
    cases hl : seqLookup ((alookup st.ssrcData ssrc).getD defaultSsrcData).queue
        (seqnum % 65536) <;>
      simp [hl, h]
  · simp [h]

/-- Witness for C9: the fresh sender knows no ssrc, so a request for
ssrc 5 is a no-op. -/
theorem c9_request_always_consumed_witness :
    acontains initSendState.ssrcData 5 = false ∧
    (senderReqEvent initSendState 7 5).1 = initSendState :=
  ⟨by decide, (c9_request_always_consumed initSendState 7 5).2.2 (by decide)⟩

/-! ## Claim C6 -/

/-- Claim C6 counterexample: a duplicate request (same seqnum, same
master, ssrc not yet associated) is forwarded upstream, but state is
mutated: `num_rtx_requests` is incremented, so "no state is mutated" is
false as stated. -/
theorem c6_counterexample :
    (recvSrcEvent c6State 50 5).2 = true ∧ (recvSrcEvent c6State 50 5).1 ≠ c6State := by
  constructor
  · decide
  · decide

/-- Claim C6 (amended): for a request `(seqnum, ssrc)` whose ssrc has no
existing association, if the request table already maps `seqnum` to the
same ssrc the event is forwarded upstream and nothing but the
`num_rtx_requests` counter changes; if it maps to a different master the
event is consumed (not forwarded) and the `seqnum` entry is erased (the
counter is still incremented and the association table is untouched), so
the table — a map keyed by seqnum — afterwards holds no entry for that
seqnum. -/
theorem c6_request_conflict (st : RecvState) (seqnum ssrc s1 : Nat)
    (hassoc : alookup st.assoc ssrc = none)
    (htab : alookup st.reqTable seqnum = some s1) :
    (s1 = ssrc →
      recvSrcEvent st seqnum ssrc = ({ st with numReq := st.numReq + 1 }, true)) ∧
    (s1 ≠ ssrc →
      recvSrcEvent st seqnum ssrc =
        ({ st with numReq := st.numReq + 1,
                   reqTable := aremove st.reqTable seqnum }, false) ∧
      ((akeys st.reqTable).Nodup →
        alookup (aremove st.reqTable seqnum) seqnum = none)) := by
  constructor
  · intro he
    subst he
    unfold recvSrcEvent recvSrcEventTable
    simp [hassoc, htab]
  · intro hne
    refine ⟨?_, fun hnd => alookup_aremove_self _ _ hnd⟩
    unfold recvSrcEvent recvSrcEventTable
    simp [hassoc, htab, hne]

/-- Witness for C6 at the conflicting request `(50, 9)` against the
stored `(50, 5)`. -/
theorem c6_request_conflict_witness :
    recvSrcEvent c6State 50 9 =
      ({ c6State with numReq := c6State.numReq + 1,
                      reqTable := aremove c6State.reqTable 50 }, false) :=
  (((c6_request_conflict c6State 50 9 5 (by decide) (by decide)).2 (by decide)).1)

/-! ## Claim C8 -/

/-- Claim C8 counterexample: `next_seqnum` is initialised by
`g_random_int_range (0, G_MAXUINT16)`, whose result lies in
`[0, 65535)`: the value 65535 is not a possible initial value, contrary
to the claim that every 16-bit value including 65535 is. -/
theorem c8_counterexample : ¬ ∃ r dr : Nat, (ssrcRtxDataNew r dr).nextSeqnum = 65535 := by
  rintro ⟨r, dr, h⟩
  simp [ssrcRtxDataNew] at h
  omega

/-- Claim C8 (amended): the initial `next_rtx_seqnum` of a fresh entry
ranges exactly over `[0, 2^16 - 1)` — every value below 65535 is
attainable, 65535 never — and every emitted RTX packet carries the
entry's current `next_rtx_seqnum` (as its 16-bit sequence number),
which is then advanced by one with 16-bit wraparound, so consecutive
RTX packets on one entry carry consecutive sequence numbers mod 2^16. -/
theorem c8_rtx_seqnum (st : SendState) (buffer : RtpPacket) (rs : List Nat)
    (v : Nat) (hv : v < 65535)
    (st1 : SendState) (out : RtpPacket) (rs1 : List Nat)
    (hrun : rtxBufferNew st buffer rs = some (st1, out, rs1))
    (d : SsrcData) (hd : alookup st.ssrcData buffer.getSsrc = some d)
    (hlen : 12 ≤ buffer.header.length) :
    (∃ r dr, (ssrcRtxDataNew r dr).nextSeqnum = v) ∧
    (∀ r dr, (ssrcRtxDataNew r dr).nextSeqnum < 65535) ∧
    out.getSeq = d.nextSeqnum % 65536 ∧
    (alookup st1.ssrcData buffer.getSsrc).map SsrcData.nextSeqnum =
      some ((d.nextSeqnum + 1) % 65536) := by
  have hc : acontains st.ssrcData buffer.getSsrc = true := by
    simp [acontains, hd]
  have hget : getSsrcData st buffer.getSsrc rs = some (st, rs) := by
    unfold getSsrcData
    rw [if_pos hc]
  unfold rtxBufferNew at hrun
  rw [hget] at hrun
  simp only [hd, Option.getD_some, Option.some.injEq, Prod.mk.injEq] at hrun
  obtain ⟨hst1, hout, hrs1⟩ := hrun
  refine ⟨⟨0, v, by simp [ssrcRtxDataNew, Nat.mod_eq_of_lt hv]⟩,
    fun r dr => by simp [ssrcRtxDataNew]; omega, ?_, ?_⟩
  · rw [← hout]
    rw [RtpPacket.getSeq_clearPaddingFlag, RtpPacket.getSeq_setPt,
      RtpPacket.getSeq_setSeq]
    rw [RtpPacket.headerLength_setSsrc]
    simpa using by omega
  · rw [← hst1]
    simp [updateData, alookup_ainsert_self]

/-- Witness for C8: the element of `c10State` (entry for master 1 with
`next_seqnum = 0`) emits an RTX packet with seqnum 0. -/
theorem c8_rtx_seqnum_witness :
    (rtxBufferNew c10State c10Buf []).map (fun r => r.2.1.getSeq) = some 0 := by
  rcases hrun : rtxBufferNew c10State c10Buf [] with _ | ⟨st1, out, rs1⟩
  · exact absurd hrun (by decide)
  · have h := c8_rtx_seqnum c10State c10Buf [] 1234 (by decide) st1 out rs1 hrun
      { rtxSsrc := 2, nextSeqnum := 0, clockRate := 0,
        queue := [{ seqnum := 5, timestamp := 1000, buffer := c10Buf }] }
      (by decide) (by decide)
    simpa using h.2.2.1

/-! ## Claim C7 -/

theorem recvPtRefresh_numAssoc (st : RecvState) :
    (recvPtRefresh st).numAssoc = st.numAssoc := by
  unfold recvPtRefresh
  split <;> rfl

theorem recvPtRefresh_of_unchanged (st : RecvState) (h : st.ptMapChanged = false) :
    recvPtRefresh st = st := by
  unfold recvPtRefresh
  rw [h]
  simp

theorem countRecon_cons (o : RecvOut) (os : List RecvOut) :
    countRecon (o :: os) = countRecon [o] + countRecon os := by
  cases o <;> simp [countRecon] <;> omega

theorem recvChain_numAssoc_step (fill : Nat) (st : RecvState) (p : RtpPacket) :
    (recvChain fill st p).1.numAssoc =
      st.numAssoc + countRecon [(recvChain fill st p).2] := by
  unfold recvChain
  by_cases h1 : acontains (recvPtRefresh st).rtxPtMap p.getPt
  · simp only [h1, if_true]
    cases h2 : alookup (recvPtRefresh st).assoc p.getSsrc with
    | some s1 => simp [h2, countRecon, recvPtRefresh_numAssoc]
    | none =>
      cases h3 : alookup (recvPtRefresh st).reqTable (readBE16 p.payload 0) with
      | some s1 => simp [h2, h3, countRecon, recvPtRefresh_numAssoc]
      | none => simp [h2, h3, countRecon, recvPtRefresh_numAssoc]
  · simp [h1, countRecon, recvPtRefresh_numAssoc]

/-- Claim C7 counterexample: an RTX packet whose stream is already
associated still increments `num_rtx_assoc_packets` (the counter is
incremented for every non-dropped RTX packet, line
`if (is_rtx && !drop) ++rtx->num_rtx_assoc_packets`), while the claim
says such a packet leaves the counter unchanged; no new association is
established here. -/
theorem c7_counterexample :
    (recvChain 0 c7State c7Pkt).1.numAssoc = c7State.numAssoc + 1 ∧
    (recvChain 0 c7State c7Pkt).1.assoc = c7State.assoc := by
  decide

/-- Claim C7 (amended): `num_rtx_assoc_packets` counts every RTX packet
that was not dropped, i.e. it grows by exactly the number of
reconstructed packets forwarded over any packet sequence; the
new-association step itself records the association symmetrically in
`assoc`, deletes the OSN entry from the request table, and increments
the counter. -/
theorem c7_assoc_counter :
    (∀ (fill : Nat) (st : RecvState) (ps : List RtpPacket),
      (recvProcessAll fill st ps).1.numAssoc =
        st.numAssoc + countRecon (recvProcessAll fill st ps).2) ∧
    (∀ (fill : Nat) (st : RecvState) (p : RtpPacket) (s1 : Nat),
      st.ptMapChanged = false →
      acontains st.rtxPtMap p.getPt = true →
      alookup st.assoc p.getSsrc = none →
      alookup st.reqTable (readBE16 p.payload 0) = some s1 →
      (recvChain fill st p).1.reqTable = aremove st.reqTable (readBE16 p.payload 0) ∧
      (recvChain fill st p).1.assoc =
        ainsert (ainsert st.assoc p.getSsrc s1) s1 p.getSsrc ∧
      (recvChain fill st p).1.numAssoc = st.numAssoc + 1) := by
  constructor
  · intro fill st ps
    induction ps generalizing st with
    | nil => simp [recvProcessAll, countRecon]
    | cons p ps ih =>
      simp only [recvProcessAll]
      rw [countRecon_cons, ih, recvChain_numAssoc_step]
      omega
  · intro fill st p s1 hchg hpt hassoc htab
    unfold recvChain
    rw [recvPtRefresh_of_unchanged st hchg]
    simp [hpt, hassoc, htab]

/-- Witness for C7's new-association step: the short-payload packet
whose out-of-range OSN read yields 1280 matches the stored request and
associates master 7 with rtx ssrc 48059. -/
theorem c7_assoc_counter_witness :
    (recvChain 0 c3State c7AssocPkt).1.reqTable = aremove c3State.reqTable 1280 ∧
    (recvChain 0 c3State c7AssocPkt).1.numAssoc = c3State.numAssoc + 1 := by
  have h := c7_assoc_counter.2 0 c3State c7AssocPkt 7 (by decide) (by decide)
    (by decide) (by decide)
  exact ⟨h.1, h.2.2⟩

/-! ## Claim C4 -/

/-- Claim C4 evidence: with `clock_rate = 0` (no caps seen) and the
non-zero setting `max-size-time = 1`, the ts-diff of a two-item history
is the `g_return_val_if_fail` fallback `G_MAXUINT64` cast to `guint32`,
i.e. 4294967295 ms, so the ingress of the second packet evicts the
first from the history: the time bound is active, not inactive. -/
theorem c4_time_eviction_with_zero_clock_rate :
    getTsDiff 0 [{ seqnum := 1, timestamp := 1000, buffer := c4Pkt1 },
                 { seqnum := 2, timestamp := 2000, buffer := c4Pkt2 }] = 4294967295 ∧
    (senderChain c4State c4Pkt2 []).map
      (fun r => (alookup r.1.ssrcData 10).map (fun d => d.queue.map QItem.seqnum)) =
      some (some [2]) := by
  decide

/-! ## Claim C5 (counterexample) -/

/-- Claim C5 counterexample: with the `ssrc-map` preferring rtx ssrc 7
for master 7, the first caps event for ssrc 7 creates an entry whose
rtx ssrc equals its master — `choose_ssrc` only redraws while the
candidate is a key of one of the two maps, and the master being created
is not yet a key — contradicting `r ≠ m`. -/
theorem c5_counterexample :
    (senderCaps c5State 7 none [3]).map
      (fun st => (alookup st.ssrcData 7).map SsrcData.rtxSsrc) = some (some 7) := by
  decide

/-! ## Claim C3 -/

/-- General shape of the new-association branch of `recvChain`: the
packet is forwarded reconstructed, never dropped, whatever its payload
length. -/
theorem recvChain_newassoc_out (fill : Nat) (st : RecvState) (p : RtpPacket) (s1 : Nat)
    (hchg : st.ptMapChanged = false)
    (hpt : acontains st.rtxPtMap p.getPt = true)
    (hassoc : alookup st.assoc p.getSsrc = none)
    (htab : alookup st.reqTable (readBE16 p.payload 0) = some s1) :
    (recvChain fill st p).2 =
      RecvOut.reconstructed
        (newFromRtx fill p s1 (readBE16 p.payload 0)
          ((alookup st.rtxPtMap p.getPt).getD 0)) := by
  unfold recvChain
  rw [recvPtRefresh_of_unchanged st hchg]
  simp [hpt, hassoc, htab]

/-- The reconstructed payload region of a 1-byte-payload RTX packet has
the underflowed `guint` length `(1 - 2) mod 2^32`. -/
theorem newFromRtx_payload_length_short (fill : Nat) (p : RtpPacket)
    (s1 osn opt : Nat) (h : p.payload.length = 1) :
    (newFromRtx fill p s1 osn opt).payload.length = 4294967295 := by
  unfold newFromRtx
  simp only [RtpPacket.payload_setPt, RtpPacket.payload_setSeq, RtpPacket.payload_setSsrc]
  rw [if_pos (by omega)]
  rw [List.length_take, List.length_append, List.length_drop, List.length_replicate, h]
  norm_num

/-- Claim C3 evidence: the receiver chain never checks the payload
length. For the RTX-classified packet with a single payload byte the
OSN is read across the payload bound (bytes 0 and 1 of a 1-byte
region, `GST_READ_UINT16_BE (payload)` with no guard), and when that
value hits the request table the packet is forwarded as a
reconstructed packet — not dropped — whose payload region length is the
underflowed `guint` `1 - 2 = 2^32 - 1`. -/
theorem c3_short_payload_not_dropped :
    (recvChain 0 c3State c3Pkt).2 =
      RecvOut.reconstructed (newFromRtx 0 c3Pkt 7 1280 96) ∧
    (newFromRtx 0 c3Pkt 7 1280 96).payload.length = 4294967295 := by
  constructor
  · have h := recvChain_newassoc_out 0 c3State c3Pkt 7 (by decide) (by decide)
      (by decide) (by decide)
    rw [show readBE16 c3Pkt.payload 0 = 1280 from by decide,
      show (alookup c3State.rtxPtMap c3Pkt.getPt).getD 0 = 96 from by decide] at h
    exact h
  · exact newFromRtx_payload_length_short 0 c3Pkt 7 1280 96 (by decide)

/-! ## Claim C1 -/

theorem readBE32_writeBE32_mod (l : List Nat) (off v : Nat)
    (hlen : off + 4 ≤ l.length) : readBE32 (writeBE32 l off v) off = v % 4294967296 := by
  unfold readBE32 writeBE32
  rw [getD_set_other _ (off + 3) off _ (by omega),
    getD_set_other _ (off + 2) off _ (by omega),
    getD_set_other _ (off + 1) off _ (by omega),
    getD_set_self _ _ _ (by omega),
    getD_set_other _ (off + 3) (off + 1) _ (by omega),
    getD_set_other _ (off + 2) (off + 1) _ (by omega),
    getD_set_self _ _ _ (by simp only [List.length_set]; omega),
    getD_set_other _ (off + 3) (off + 2) _ (by omega),
    getD_set_self _ _ _ (by simp only [List.length_set]; omega),
    getD_set_self _ _ _ (by simp only [List.length_set]; omega)]
  omega

theorem RtpPacket.getSsrc_setPt (p : RtpPacket) (v : Nat) :
    (p.setPt v).getSsrc = p.getSsrc := by
  unfold RtpPacket.setPt
  split
  · unfold RtpPacket.getSsrc readBE32
    simp only
    rw [getD_set_other _ 1 8 _ (by omega), getD_set_other _ 1 9 _ (by omega),
      getD_set_other _ 1 10 _ (by omega), getD_set_other _ 1 11 _ (by omega)]
  · rfl

theorem RtpPacket.getSsrc_setSeq (p : RtpPacket) (v : Nat) :
    (p.setSeq v).getSsrc = p.getSsrc := by
  unfold RtpPacket.setSeq RtpPacket.getSsrc
  simp only
  unfold readBE32
  rw [getD_writeBE16_other _ _ _ 8 (by omega) (by omega),
    getD_writeBE16_other _ _ _ 9 (by omega) (by omega),
    getD_writeBE16_other _ _ _ 10 (by omega) (by omega),
    getD_writeBE16_other _ _ _ 11 (by omega) (by omega)]

theorem RtpPacket.getSsrc_setSsrc (p : RtpPacket) (v : Nat) (h : 12 ≤ p.header.length) :
    (p.setSsrc v).getSsrc = v % 4294967296 := by
  unfold RtpPacket.setSsrc RtpPacket.getSsrc
  simp only
  exact readBE32_writeBE32_mod p.header 8 v (by omega)

theorem RtpPacket.getPt_setPt (p : RtpPacket) (v : Nat) (hv : v < 128)
    (h : 2 ≤ p.header.length) : (p.setPt v).getPt = v := by
  unfold RtpPacket.setPt
  rw [if_pos hv]
  unfold RtpPacket.getPt
  simp only
  rw [getD_set_self _ _ _ (by omega)]
  omega

/-- The fixed header of a receiver-reconstructed packet: the incoming
header with the seqnum field, the ssrc field and the low 7 bits of
byte 1 overwritten. -/
theorem newFromRtx_header (fill : Nat) (p : RtpPacket) (ssrc1 osn originPt : Nat)
    (hpt : originPt < 128) :
    (newFromRtx fill p ssrc1 osn originPt).header =
      (writeBE16 (writeBE32 p.header 8 ssrc1) 2 osn).set 1
        ((writeBE16 (writeBE32 p.header 8 ssrc1) 2 osn).getD 1 0 % 256 / 128 * 128 +
          originPt) := by
  unfold newFromRtx RtpPacket.setPt
  rw [if_pos hpt]
  rfl

theorem newFromRtx_ext (fill : Nat) (p : RtpPacket) (s o t : Nat) :
    (newFromRtx fill p s o t).ext = p.ext := by
  unfold newFromRtx
  rw [RtpPacket.ext_setPt, RtpPacket.ext_setSeq, RtpPacket.ext_setSsrc]

theorem newFromRtx_padding (fill : Nat) (p : RtpPacket) (s o t : Nat) :
    (newFromRtx fill p s o t).padding =
      (if p.padding.length ≠ 0 then
        (List.replicate p.padding.length (fill % 256)).set (p.padding.length - 1)
          (p.padding.length % 256)
      else []) := by
  unfold newFromRtx
  rw [RtpPacket.padding_setPt, RtpPacket.padding_setSeq, RtpPacket.padding_setSsrc]

theorem newFromRtx_payload_normal (fill : Nat) (p : RtpPacket) (s o t : Nat)
    (hpl : 2 ≤ p.payload.length) (hplb : p.payload.length < 4294967296) :
    (newFromRtx fill p s o t).payload = p.payload.drop 2 := by
  unfold newFromRtx
  rw [RtpPacket.payload_setPt, RtpPacket.payload_setSeq, RtpPacket.payload_setSsrc]
  rw [if_pos (by omega)]
  have hlen : (p.payload.length + 4294967296 - 2) % 4294967296 = p.payload.length - 2 := by
    omega
  rw [hlen]
  have hz : p.payload.length - 2 - (p.payload.length - 2) = 0 := by omega
  rw [hz, List.replicate_zero, List.append_nil]
  rw [show p.payload.length - 2 = (p.payload.drop 2).length by simp, List.take_length]

/-- Claim C1 counterexample: reconstruction does not copy the padding
bytes — it allocates a fresh region and writes only the last byte — so
two RTX buffers differing in a non-final padding byte reconstruct to
identical packets, and (in the execution where the allocator returns
zeroed memory) the reconstructed padding differs from the incoming
padding. -/
theorem c1_counterexample :
    newFromRtx 0 c1PktA 43690 50 96 = newFromRtx 0 c1PktB 43690 50 96 ∧
    c1PktA.padding ≠ c1PktB.padding ∧
    (newFromRtx 0 c1PktA 43690 50 96).padding ≠ c1PktA.padding := by
  decide

/-- Claim C1 (amended): a reconstructed packet has the master SSRC, the
OSN sequence number and the original payload type; the extension region
and the fixed-header bytes outside the SSRC/Seq/PT fields (marker bit
included) are byte-identical to the incoming RTX buffer, and the
payload is the RTX payload minus its leading two OSN bytes. When the
RTX carries padding the reconstructed padding region has the same
length and its last byte is set to that length, but the remaining
padding bytes are freshly allocated, not copied. -/
theorem c1_reconstruction (fill : Nat) (p : RtpPacket) (ssrc1 osn originPt : Nat)
    (hlen : 12 ≤ p.header.length) (hpl : 2 ≤ p.payload.length)
    (hplb : p.payload.length < 4294967296)
    (hosn : osn < 65536) (hpt : originPt < 128) (hssrc : ssrc1 < 4294967296) :
    (newFromRtx fill p ssrc1 osn originPt).getSsrc = ssrc1 ∧
    (newFromRtx fill p ssrc1 osn originPt).getSeq = osn ∧
    (newFromRtx fill p ssrc1 osn originPt).getPt = originPt ∧
    (newFromRtx fill p ssrc1 osn originPt).ext = p.ext ∧
    (newFromRtx fill p ssrc1 osn originPt).payload = p.payload.drop 2 ∧
    (newFromRtx fill p ssrc1 osn originPt).header.length = p.header.length ∧
    (∀ i, i ≠ 1 → i ≠ 2 → i ≠ 3 → i ≠ 8 → i ≠ 9 → i ≠ 10 → i ≠ 11 →
      (newFromRtx fill p ssrc1 osn originPt).header.getD i 0 = p.header.getD i 0) ∧
    (newFromRtx fill p ssrc1 osn originPt).header.getD 1 0 / 128 =
      p.header.getD 1 0 % 256 / 128 ∧
    (p.padding ≠ [] →
      (newFromRtx fill p ssrc1 osn originPt).padding.length = p.padding.length ∧
      (newFromRtx fill p ssrc1 osn originPt).padding.getD (p.padding.length - 1) 0 =
        p.padding.length % 256) ∧
    (p.padding = [] → (newFromRtx fill p ssrc1 osn originPt).padding = []) := by
  have hwlen2 : (writeBE16 (writeBE32 p.header 8 ssrc1) 2 osn).length = p.header.length := by
    simp [writeBE16, writeBE32]
  refine ⟨?_, ?_, ?_, newFromRtx_ext fill p ssrc1 osn originPt,
    newFromRtx_payload_normal fill p ssrc1 osn originPt hpl hplb, ?_, ?_, ?_, ?_, ?_⟩
  · unfold RtpPacket.getSsrc
    rw [newFromRtx_header fill p ssrc1 osn originPt hpt]
    unfold readBE32
    rw [getD_set_other _ 1 8 _ (by omega), getD_set_other _ 1 9 _ (by omega),
      getD_set_other _ 1 10 _ (by omega), getD_set_other _ 1 11 _ (by omega),
      getD_writeBE16_other _ 2 osn 8 (by omega) (by omega),
      getD_writeBE16_other _ 2 osn 9 (by omega) (by omega),
      getD_writeBE16_other _ 2 osn 10 (by omega) (by omega),
      getD_writeBE16_other _ 2 osn 11 (by omega) (by omega)]
    have := readBE32_writeBE32_mod p.header 8 ssrc1 (by omega)
    unfold readBE32 at this
    rw [show (8:Nat) + 1 = 9 from rfl, show (8:Nat) + 2 = 10 from rfl,
      show (8:Nat) + 3 = 11 from rfl] at this
    rw [this, Nat.mod_eq_of_lt hssrc]
  · unfold RtpPacket.getSeq
    rw [newFromRtx_header fill p ssrc1 osn originPt hpt]
    unfold readBE16
    rw [getD_set_other _ 1 2 _ (by omega), getD_set_other _ 1 3 _ (by omega)]
    have := readBE16_writeBE16_mod (writeBE32 p.header 8 ssrc1) 2 osn
      (by simp only [writeBE32, List.length_set]; omega)
    unfold readBE16 at this
    rw [show (2:Nat) + 1 = 3 from rfl] at this
    rw [this, Nat.mod_eq_of_lt hosn]
  · unfold RtpPacket.getPt
    rw [newFromRtx_header fill p ssrc1 osn originPt hpt]
    rw [getD_set_self _ _ _ (by rw [hwlen2]; omega)]
    omega
  · rw [newFromRtx_header fill p ssrc1 osn originPt hpt]
    simp [writeBE16, writeBE32]
  · intro i h1 h2 h3 h8 h9 h10 h11
    rw [newFromRtx_header fill p ssrc1 osn originPt hpt]
    rw [getD_set_other _ 1 i _ (fun hh => h1 hh.symm),
      getD_writeBE16_other _ 2 osn i h2 (by omega),
      getD_writeBE32_other _ 8 ssrc1 i h8 (by omega) (by omega) (by omega)]
  · rw [newFromRtx_header fill p ssrc1 osn originPt hpt]
    rw [getD_set_self _ _ _ (by rw [hwlen2]; omega)]
    rw [getD_writeBE16_other _ 2 osn 1 (by omega) (by omega),
      getD_writeBE32_other _ 8 ssrc1 1 (by omega) (by omega) (by omega) (by omega)]
    omega
  · intro hpad
    have hne : p.padding.length ≠ 0 := by
      simpa using hpad
    rw [newFromRtx_padding fill p ssrc1 osn originPt, if_pos hne]
    constructor
    · simp
    · rw [getD_set_self _ _ _ (by simp; omega)]
  · intro hpad
    rw [newFromRtx_padding fill p ssrc1 osn originPt, hpad]
    simp

/-- Witness for C1 at the concrete RTX buffer `c1PktA`. -/
theorem c1_reconstruction_witness :
    (newFromRtx 0 c1PktA 43690 50 96).payload = c1PktA.payload.drop 2 ∧
    (newFromRtx 0 c1PktA 43690 50 96).getSeq = 50 := by
  have h := c1_reconstruction 0 c1PktA 43690 50 96 (by decide) (by decide) (by decide)
    (by decide) (by decide) (by decide)
  exact ⟨h.2.2.2.2.1, h.2.1⟩

/-! ## Claim C5: invariant machinery -/

theorem acontains_false_iff {α : Type} (l : List (Nat × α)) (k : Nat) :
    acontains l k = false ↔ alookup l k = none := by
  unfold acontains
  cases alookup l k <;> simp

theorem chooseLoop_fresh (taken : Nat → Bool) (cand : Nat) (rs : List Nat)
    (r : Nat) (rs1 : List Nat) (h : chooseLoop taken cand rs = some (r, rs1)) :
    taken r = false := by
  induction rs generalizing cand with
  | nil =>
    unfold chooseLoop at h
    by_cases ht : taken cand
    · rw [if_pos ht] at h
      cases h
    · rw [if_neg ht] at h
      injection h with h1
      injection h1 with h2 h3
      subst h2
      simpa using ht
  | cons a rest ih =>
    unfold chooseLoop at h
    by_cases ht : taken cand
    · rw [if_pos ht] at h
      exact ih a h
    · rw [if_neg ht] at h
      injection h with h1
      injection h1 with h2 h3
      subst h2
      simpa using ht

theorem chooseSsrc_fresh (st : SendState) (choice : Nat) (consider : Bool)
    (rs : List Nat) (r : Nat) (rs1 : List Nat)
    (h : chooseSsrc st choice consider rs = some (r, rs1)) :
    ssrcTaken st r = false := by
  unfold chooseSsrc at h
  by_cases hc : consider = true
  · rw [if_pos hc] at h
    exact chooseLoop_fresh _ _ _ _ _ h
  · rw [if_neg hc] at h
    cases rs with
    | nil => cases h
    | cons a rest => exact chooseLoop_fresh _ _ _ _ _ h

theorem getSsrcData_cases (st : SendState) (ssrc : Nat) (rs : List Nat)
    (st1 : SendState) (rs1 : List Nat)
    (h : getSsrcData st ssrc rs = some (st1, rs1)) :
    (st1 = st ∧ rs1 = rs ∧ acontains st.ssrcData ssrc = true) ∨
    (∃ r dr, acontains st.ssrcData ssrc = false ∧ ssrcTaken st r = false ∧
      st1 = { st with ssrcData := ainsert st.ssrcData ssrc (ssrcRtxDataNew r dr),
                      rtxSsrcs := ainsert st.rtxSsrcs r ssrc }) := by
  simp only [getSsrcData] at h
  by_cases hc : acontains st.ssrcData ssrc
  · rw [if_pos hc] at h
    injection h with h1
    injection h1 with h2 h3
    exact Or.inl ⟨h2.symm, h3.symm, hc⟩
  · rw [if_neg hc] at h
    rcases hpref : st.externalSsrcMap.bind (fun m => alookup m ssrc) with _ | v <;>
      rw [hpref] at h <;> dsimp only at h
    · rcases hch : chooseSsrc st 0 false rs with _ | ⟨r, rs2⟩ <;> rw [hch] at h
      · cases h
      · cases rs2 with
        | nil => cases h
        | cons dr rs3 =>
          injection h with h1
          injection h1 with h2 h3
          refine Or.inr ⟨r, dr, by simpa using hc, chooseSsrc_fresh _ _ _ _ _ _ hch, h2.symm⟩
    · rcases hch : chooseSsrc st v true rs with _ | ⟨r, rs2⟩ <;> rw [hch] at h
      · cases h
      · cases rs2 with
        | nil => cases h
        | cons dr rs3 =>
          injection h with h1
          injection h1 with h2 h3
          refine Or.inr ⟨r, dr, by simpa using hc, chooseSsrc_fresh _ _ _ _ _ _ hch, h2.symm⟩

theorem getSsrcData_contains (st : SendState) (ssrc : Nat) (rs : List Nat)
    (st1 : SendState) (rs1 : List Nat)
    (h : getSsrcData st ssrc rs = some (st1, rs1)) :
    ∃ d, alookup st1.ssrcData ssrc = some d := by
  rcases getSsrcData_cases st ssrc rs st1 rs1 h with ⟨he, _, hc⟩ | ⟨r, dr, _, _, he⟩
  · subst he
    rcases (acontains_iff _ _).1 hc with ⟨d, hd⟩
    exact ⟨d, hd⟩
  · subst he
    exact ⟨ssrcRtxDataNew r dr, by simp [alookup_ainsert_self]⟩

theorem sendInv_of_eq (st1 st2 : SendState) (h1 : st2.ssrcData = st1.ssrcData)
    (h2 : st2.rtxSsrcs = st1.rtxSsrcs) (h : SendInv st1) : SendInv st2 := by
  unfold SendInv at h ⊢
  rw [h1, h2]
  exact h

theorem ssrcTaken_false (st : SendState) (r : Nat) (h : ssrcTaken st r = false) :
    alookup st.ssrcData r = none ∧ alookup st.rtxSsrcs r = none := by
  unfold ssrcTaken at h
  rcases Bool.or_eq_false_iff.1 h with ⟨h1, h2⟩
  exact ⟨(acontains_false_iff _ _).1 h1, (acontains_false_iff _ _).1 h2⟩

theorem sendInv_create (st : SendState) (m r : Nat) (d : SsrcData)
    (hInv : SendInv st) (hfresh : ssrcTaken st r = false) (hd : d.rtxSsrc = r)
    (hm : acontains st.ssrcData m = false) :
    SendInv { st with ssrcData := ainsert st.ssrcData m d,
                      rtxSsrcs := ainsert st.rtxSsrcs r m } := by
  obtain ⟨hnd1, hnd2, hdir1, hdir2⟩ := hInv
  obtain ⟨hfr1, hfr2⟩ := ssrcTaken_false st r hfresh
  have hmnone : alookup st.ssrcData m = none := (acontains_false_iff _ _).1 hm
  refine ⟨akeys_ainsert_nodup _ _ _ hnd1, akeys_ainsert_nodup _ _ _ hnd2, ?_, ?_⟩
  · intro m2 d2 hm2
    simp only at hm2 ⊢
    by_cases hmm : m = m2
    · subst hmm
      rw [alookup_ainsert_self] at hm2
      obtain rfl : d = d2 := Option.some.inj hm2
      rw [hd, alookup_ainsert_self]
    · rw [alookup_ainsert_ne _ _ _ _ hmm] at hm2
      have hold := hdir1 m2 d2 hm2
      have hne : r ≠ d2.rtxSsrc := by
        intro he
        rw [← he, hfr2] at hold
        cases hold
      rw [alookup_ainsert_ne _ _ _ _ hne]
      exact hold
  · intro r2 m2 hr2
    simp only at hr2 ⊢
    by_cases hrr : r = r2
    · subst hrr
      rw [alookup_ainsert_self] at hr2
      obtain rfl : m = m2 := Option.some.inj hr2
      exact ⟨d, by rw [alookup_ainsert_self], hd⟩
    · rw [alookup_ainsert_ne _ _ _ _ hrr] at hr2
      obtain ⟨d2, hd2, hrtx⟩ := hdir2 r2 m2 hr2
      have hne : m ≠ m2 := by
        intro he
        rw [← he, hmnone] at hd2
        cases hd2
      exact ⟨d2, by rw [alookup_ainsert_ne _ _ _ _ hne]; exact hd2, hrtx⟩

theorem sendInv_update (st : SendState) (m : Nat) (d d2 : SsrcData)
    (hInv : SendInv st) (hd : alookup st.ssrcData m = some d)
    (h2 : d2.rtxSsrc = d.rtxSsrc) :
    SendInv { st with ssrcData := ainsert st.ssrcData m d2 } := by
  obtain ⟨hnd1, hnd2, hdir1, hdir2⟩ := hInv
  refine ⟨akeys_ainsert_nodup _ _ _ hnd1, hnd2, ?_, ?_⟩
  · intro m2 d3 hm2
    simp only at hm2 ⊢
    by_cases hmm : m = m2
    · subst hmm
      rw [alookup_ainsert_self] at hm2
      obtain rfl : d2 = d3 := Option.some.inj hm2
      rw [h2]
      exact hdir1 m d hd
    · rw [alookup_ainsert_ne _ _ _ _ hmm] at hm2
      exact hdir1 m2 d3 hm2
  · intro r3 m3 hr3
    simp only at hr3 ⊢
    obtain ⟨d3, hd3, hrtx⟩ := hdir2 r3 m3 hr3
    by_cases hmm : m = m3
    · subst hmm
      obtain rfl : d = d3 := Option.some.inj (hd.symm.trans hd3)
      exact ⟨d2, by rw [alookup_ainsert_self], h2.trans hrtx⟩
    · exact ⟨d3, by rw [alookup_ainsert_ne _ _ _ _ hmm]; exact hd3, hrtx⟩

theorem sendInv_rotate (st : SendState) (ssrc master r2 : Nat) (d : SsrcData)
    (hInv : SendInv st) (hr : alookup st.rtxSsrcs ssrc = some master)
    (hd : alookup st.ssrcData master = some d)
    (hfresh : ssrcTaken st r2 = false) :
    SendInv { st with
      ssrcData := ainsert st.ssrcData master { d with rtxSsrc := r2 },
      rtxSsrcs := ainsert (aremove st.rtxSsrcs ssrc) r2 master } := by
  obtain ⟨hnd1, hnd2, hdir1, hdir2⟩ := hInv
  obtain ⟨hfr1, hfr2⟩ := ssrcTaken_false st r2 hfresh
  have hds : d.rtxSsrc = ssrc := by
    obtain ⟨d2, hd2, hrtx⟩ := hdir2 ssrc master hr
    obtain rfl : d = d2 := Option.some.inj (hd.symm.trans hd2)
    exact hrtx
  refine ⟨akeys_ainsert_nodup _ _ _ hnd1,
    akeys_ainsert_nodup _ _ _ (akeys_aremove_nodup _ _ hnd2), ?_, ?_⟩
  · intro m2 d2 hm2
    simp only at hm2 ⊢
    by_cases hmm : master = m2
    · subst hmm
      rw [alookup_ainsert_self] at hm2
      obtain rfl : { d with rtxSsrc := r2 } = d2 := Option.some.inj hm2
      rw [alookup_ainsert_self]
    · rw [alookup_ainsert_ne _ _ _ _ hmm] at hm2
      have hold := hdir1 m2 d2 hm2
      have hne2 : r2 ≠ d2.rtxSsrc := by
        intro he
        rw [← he, hfr2] at hold
        cases hold
      have hnes : ssrc ≠ d2.rtxSsrc := by
        intro he
        rw [← he, hr] at hold
        exact hmm (Option.some.inj hold)
      rw [alookup_ainsert_ne _ _ _ _ hne2, alookup_aremove_ne _ _ _ hnes]
      exact hold
  · intro r3 m3 hr3
    simp only at hr3 ⊢
    by_cases hrr : r2 = r3
    · subst hrr
      rw [alookup_ainsert_self] at hr3
      obtain rfl : master = m3 := Option.some.inj hr3
      exact ⟨{ d with rtxSsrc := r2 }, by rw [alookup_ainsert_self], rfl⟩
    · rw [alookup_ainsert_ne _ _ _ _ hrr] at hr3
      have hnes : ssrc ≠ r3 := by
        intro he
        rw [← he, alookup_aremove_self _ _ hnd2] at hr3
        cases hr3
      rw [alookup_aremove_ne _ _ _ hnes] at hr3
      obtain ⟨d3, hd3, hrtx⟩ := hdir2 r3 m3 hr3
      have hne : master ≠ m3 := by
        intro he
        subst he
        obtain rfl : d = d3 := Option.some.inj (hd.symm.trans hd3)
        exact hnes (hds.symm.trans hrtx)
      exact ⟨d3, by rw [alookup_ainsert_ne _ _ _ _ hne]; exact hd3, hrtx⟩

theorem sendInv_remove (st : SendState) (ssrc : Nat) (d : SsrcData)
    (hInv : SendInv st) (hd : alookup st.ssrcData ssrc = some d) :
    SendInv { st with rtxSsrcs := aremove st.rtxSsrcs d.rtxSsrc,
                      ssrcData := aremove st.ssrcData ssrc } := by
  obtain ⟨hnd1, hnd2, hdir1, hdir2⟩ := hInv
  refine ⟨akeys_aremove_nodup _ _ hnd1, akeys_aremove_nodup _ _ hnd2, ?_, ?_⟩
  · intro m2 d2 hm2
    simp only at hm2 ⊢
    have hne : ssrc ≠ m2 := by
      intro he
      rw [← he, alookup_aremove_self _ _ hnd1] at hm2
      cases hm2
    rw [alookup_aremove_ne _ _ _ hne] at hm2
    have hold := hdir1 m2 d2 hm2
    have hne2 : d.rtxSsrc ≠ d2.rtxSsrc := by
      intro he
      have hss := hdir1 ssrc d hd
      rw [← he, hss] at hold
      exact hne (Option.some.inj hold)
    rw [alookup_aremove_ne _ _ _ hne2]
    exact hold
  · intro r3 m3 hr3
    simp only at hr3 ⊢
    have hne : d.rtxSsrc ≠ r3 := by
      intro he
      rw [← he, alookup_aremove_self _ _ hnd2] at hr3
      cases hr3
    rw [alookup_aremove_ne _ _ _ hne] at hr3
    obtain ⟨d3, hd3, hrtx⟩ := hdir2 r3 m3 hr3
    have hne3 : ssrc ≠ m3 := by
      intro he
      subst he
      obtain rfl : d = d3 := Option.some.inj (hd.symm.trans hd3)
      exact hne hrtx
    exact ⟨d3, by rw [alookup_aremove_ne _ _ _ hne3]; exact hd3, hrtx⟩

theorem getSsrcData_inv (st : SendState) (ssrc : Nat) (rs : List Nat)
    (st1 : SendState) (rs1 : List Nat) (hInv : SendInv st)
    (h : getSsrcData st ssrc rs = some (st1, rs1)) : SendInv st1 := by
  rcases getSsrcData_cases st ssrc rs st1 rs1 h with ⟨he, _, _⟩ | ⟨r, dr, hm, hfresh, he⟩
  · subst he
    exact hInv
  · subst he
    exact sendInv_create st ssrc r (ssrcRtxDataNew r dr) hInv hfresh rfl hm

theorem sendPtRefresh_maps (st : SendState) :
    (sendPtRefresh st).ssrcData = st.ssrcData ∧ (sendPtRefresh st).rtxSsrcs = st.rtxSsrcs := by
  unfold sendPtRefresh
  split <;> exact ⟨rfl, rfl⟩

theorem storeBuffer_inv (st : SendState) (ssrc seqnum rtptime : Nat) (buf : RtpPacket)
    (rs : List Nat) (st1 : SendState) (rs1 : List Nat) (hInv : SendInv st)
    (h : storeBuffer st ssrc seqnum rtptime buf rs = some (st1, rs1)) : SendInv st1 := by
  simp only [storeBuffer] at h
  rcases hg : getSsrcData st ssrc rs with _ | ⟨st2, rs2⟩ <;> rw [hg] at h
  · cases h
  · dsimp only at h
    obtain ⟨h2, h3⟩ : _ ∧ _ := by
      simpa only [Option.some.injEq, Prod.mk.injEq] using h
    have hInv2 := getSsrcData_inv st ssrc rs st2 rs2 hInv hg
    obtain ⟨d, hd⟩ := getSsrcData_contains st ssrc rs st2 rs2 hg
    rw [← h2]
    unfold updateData
    rw [hd]
    simp only [Option.getD_some]
    exact sendInv_update st2 ssrc d _ hInv2 hd rfl

theorem rtxBufferNew_inv (st : SendState) (buf : RtpPacket) (rs : List Nat)
    (st1 : SendState) (out : RtpPacket) (rs1 : List Nat) (hInv : SendInv st)
    (h : rtxBufferNew st buf rs = some (st1, out, rs1)) : SendInv st1 := by
  simp only [rtxBufferNew] at h
  rcases hg : getSsrcData st buf.getSsrc rs with _ | ⟨st2, rs2⟩ <;> rw [hg] at h
  · cases h
  · dsimp only at h
    obtain ⟨h2, h3, h4⟩ : _ ∧ _ ∧ _ := by
      simpa only [Option.some.injEq, Prod.mk.injEq] using h
    have hInv2 := getSsrcData_inv st buf.getSsrc rs st2 rs2 hInv hg
    obtain ⟨d, hd⟩ := getSsrcData_contains st buf.getSsrc rs st2 rs2 hg
    rw [← h2]
    unfold updateData
    rw [hd]
    simp only [Option.getD_some]
    exact sendInv_update st2 buf.getSsrc d _ hInv2 hd rfl

theorem emitAll_inv (bufs : List RtpPacket) : ∀ (st : SendState) (rs : List Nat)
    (st1 : SendState) (outs : List RtpPacket) (rs1 : List Nat), SendInv st →
    emitAll st bufs rs = some (st1, outs, rs1) → SendInv st1 := by
  induction bufs with
  | nil =>
    intro st rs st1 outs rs1 hInv h
    simp only [emitAll, Option.some.injEq, Prod.mk.injEq] at h
    exact h.1 ▸ hInv
  | cons b bs ih =>
    intro st rs st1 outs rs1 hInv h
    simp only [emitAll] at h
    rcases hb : rtxBufferNew st b rs with _ | ⟨st2, out2, rs2⟩ <;> rw [hb] at h
    · cases h
    · dsimp only at h
      rcases he : emitAll st2 bs rs2 with _ | ⟨st3, outs3, rs3⟩ <;> rw [he] at h
      · cases h
      · simp only [Option.some.injEq, Prod.mk.injEq] at h
        exact h.1 ▸ ih st2 rs2 st3 outs3 rs3
          (rtxBufferNew_inv st b rs st2 out2 rs2 hInv hb) he

theorem senderChain_inv (st : SendState) (pkt : RtpPacket) (rs : List Nat)
    (st1 : SendState) (outs : List RtpPacket) (hInv : SendInv st)
    (h : senderChain st pkt rs = some (st1, outs)) : SendInv st1 := by
  have hInv0 : SendInv (sendPtRefresh st) :=
    sendInv_of_eq st (sendPtRefresh st) (sendPtRefresh_maps st).1
      (sendPtRefresh_maps st).2 hInv
  simp only [senderChain] at h
  have hmain : ∀ (stA : SendState) (rsA : List Nat), SendInv stA →
      (match emitAll
          (if stA.pending.length > 0 then
            { stA with pending := [], numPkt := stA.numPkt + stA.pending.length }
          else stA) stA.pending rsA with
        | none => none
        | some (st3, outs2, _) => some (st3, outs2 ++ [pkt])) = some (st1, outs) →
      SendInv st1 := by
    intro stA rsA hA hm
    have hA2 : SendInv (if stA.pending.length > 0 then
        { stA with pending := [], numPkt := stA.numPkt + stA.pending.length }
      else stA) := by
      split <;> [exact sendInv_of_eq _ _ rfl rfl hA; exact hA]
    rcases he : emitAll (if stA.pending.length > 0 then
        { stA with pending := [], numPkt := stA.numPkt + stA.pending.length }
      else stA) stA.pending rsA with _ | ⟨st3, outs2, rs3⟩ <;> rw [he] at hm
    · cases hm
    · simp only [Option.some.injEq, Prod.mk.injEq] at hm
      exact hm.1 ▸ emitAll_inv _ _ _ _ _ _ hA2 he
  by_cases hpt : acontains (sendPtRefresh st).rtxPtMap pkt.getPt
  · rw [if_pos hpt] at h
    rcases hs : storeBuffer (sendPtRefresh st) pkt.getSsrc pkt.getSeq pkt.getTimestamp
        pkt rs with _ | ⟨st2, rs2⟩ <;> rw [hs] at h
    · cases h
    · exact hmain st2 rs2
        (storeBuffer_inv _ _ _ _ _ _ _ _ hInv0 hs) h
  · rw [if_neg hpt] at h
    exact hmain (sendPtRefresh st) rs hInv0 h

theorem senderReqEvent_maps (st : SendState) (seqnum ssrc : Nat) :
    (senderReqEvent st seqnum ssrc).1.ssrcData = st.ssrcData ∧
    (senderReqEvent st seqnum ssrc).1.rtxSsrcs = st.rtxSsrcs := by
  unfold senderReqEvent
  by_cases h : acontains st.ssrcData ssrc
  · simp only [h, if_true]
    cases seqLookup ((alookup st.ssrcData ssrc).getD defaultSsrcData).queue
        (seqnum % 65536) <;> exact ⟨rfl, rfl⟩
  · simp [h]

theorem senderCollision_inv (st : SendState) (ssrc : Nat) (rs : List Nat)
    (st1 : SendState) (fwd : Bool) (hInv : SendInv st)
    (h : senderCollision st ssrc rs = some (st1, fwd)) : SendInv st1 := by
  simp only [senderCollision] at h
  by_cases h1 : acontains st.rtxSsrcs ssrc
  · rw [if_pos h1] at h
    obtain ⟨master, hmaster⟩ := (acontains_iff _ _).1 h1
    rcases hg : getSsrcData st ((alookup st.rtxSsrcs ssrc).getD 0) rs
      with _ | ⟨st2, rs2⟩ <;> rw [hg] at h
    · cases h
    · dsimp only at h
      rcases hch : chooseSsrc st2 0 false rs2 with _ | ⟨r2, rs3⟩ <;> rw [hch] at h
      · cases h
      · simp only [Option.some.injEq, Prod.mk.injEq] at h
        -- the looked-up master is a key of ssrc_data by the invariant,
        -- so getSsrcData created nothing
        have hmm : alookup st.rtxSsrcs ssrc = some master := hmaster
        have hmd : ∃ d, alookup st.ssrcData master = some d ∧ d.rtxSsrc = ssrc :=
          hInv.2.2.2 ssrc master hmm
        obtain ⟨d, hd, hds⟩ := hmd
        have hst2 : st2 = st := by
          rcases getSsrcData_cases st _ rs st2 rs2 hg with ⟨he, _, _⟩ | ⟨r, dr, hcf, _, _⟩
          · exact he
          · rw [hmm] at hcf
            simp only [Option.getD_some] at hcf
            rw [(acontains_false_iff _ _).1 hcf] at hd
            cases hd
        subst hst2
        rw [hmm] at h
        simp only [Option.getD_some] at h
        rw [hd] at h
        simp only [Option.getD_some] at h
        refine h.1 ▸ sendInv_rotate st2 ssrc master r2 d hInv hmm hd ?_
        exact chooseSsrc_fresh st2 0 false rs2 r2 rs3 hch
  · rw [if_neg h1] at h
    by_cases h2 : acontains st.ssrcData ssrc
    · rw [if_pos h2] at h
      obtain ⟨d, hd⟩ := (acontains_iff _ _).1 h2
      simp only [Option.some.injEq, Prod.mk.injEq] at h
      rw [hd] at h
      simp only [Option.getD_some] at h
      exact h.1 ▸ sendInv_remove st ssrc d hInv hd
    · rw [if_neg h2] at h
      simp only [Option.some.injEq, Prod.mk.injEq] at h
      exact h.1 ▸ hInv

theorem senderCaps_inv (st : SendState) (ssrc : Nat) (clockRate : Option Int)
    (rs : List Nat) (st1 : SendState) (hInv : SendInv st)
    (h : senderCaps st ssrc clockRate rs = some st1) : SendInv st1 := by
  simp only [senderCaps] at h
  rcases hg : getSsrcData st ssrc rs with _ | ⟨st2, rs2⟩ <;> rw [hg] at h
  · cases h
  · have hInv2 := getSsrcData_inv st ssrc rs st2 rs2 hInv hg
    obtain ⟨d, hd⟩ := getSsrcData_contains st ssrc rs st2 rs2 hg
    cases clockRate with
    | none =>
      dsimp only at h
      injection h with h1
      exact h1 ▸ hInv2
    | some c =>
      dsimp only at h
      injection h with h1
      rw [← h1]
      unfold updateData
      rw [hd]
      simp only [Option.getD_some]
      exact sendInv_update st2 ssrc d _ hInv2 hd rfl

theorem sendInv_init : SendInv initSendState := by
  refine ⟨by simp [initSendState, akeys], by simp [initSendState, akeys], ?_, ?_⟩
  · intro m d h
    simp [initSendState, alookup] at h
  · intro r m h
    simp [initSendState, alookup] at h

theorem sendStep_inv (st : SendState) (op : SendOp) (st1 : SendState)
    (hInv : SendInv st) (h : sendStep st op = some st1) : SendInv st1 := by
  cases op with
  | chain pkt rs =>
    simp only [sendStep] at h
    rcases hc : senderChain st pkt rs with _ | ⟨st2, outs⟩ <;> rw [hc] at h
    · cases h
    · simp only [Option.map_some', Option.some.injEq] at h
      exact h ▸ senderChain_inv st pkt rs st2 outs hInv hc
  | request seqnum ssrc =>
    simp only [sendStep, Option.some.injEq] at h
    refine h ▸ sendInv_of_eq st _ ?_ ?_ hInv
    · exact (senderReqEvent_maps st seqnum ssrc).1
    · exact (senderReqEvent_maps st seqnum ssrc).2
  | collision ssrc rs =>
    simp only [sendStep] at h
    rcases hc : senderCollision st ssrc rs with _ | ⟨st2, fwd⟩ <;> rw [hc] at h
    · cases h
    · simp only [Option.map_some', Option.some.injEq] at h
      exact h ▸ senderCollision_inv st ssrc rs st2 fwd hInv hc
  | caps ssrc c rs =>
    simp only [sendStep] at h
    exact senderCaps_inv st ssrc c rs st1 hInv h
  | setSsrcMap m =>
    simp only [sendStep, Option.some.injEq] at h
    exact h ▸ sendInv_of_eq st _ rfl rfl hInv
  | setPtMap m =>
    simp only [sendStep, Option.some.injEq] at h
    exact h ▸ sendInv_of_eq st _ rfl rfl hInv
  | setMaxSizeTime n =>
    simp only [sendStep, Option.some.injEq] at h
    exact h ▸ sendInv_of_eq st _ rfl rfl hInv
  | setMaxSizePackets n =>
    simp only [sendStep, Option.some.injEq] at h
    exact h ▸ sendInv_of_eq st _ rfl rfl hInv
  | reset =>
    simp only [sendStep, Option.some.injEq] at h
    refine h ▸ ?_
    refine ⟨by simp [senderReset, akeys], by simp [senderReset, akeys], ?_, ?_⟩
    · intro m d hh
      simp [senderReset, alookup] at hh
    · intro r m hh
      simp [senderReset, alookup] at hh

/-- Claim C5 (amended): after any sequence of sender operations from
the initial state the two SSRC maps are exact inverses — for every
master `m` with entry `d`, `rtx_ssrcs[d.rtx_ssrc] = m`, and every
`rtx_ssrcs` pair comes from such an entry — and a freshly chosen rtx
ssrc always differs from every ssrc that is a key of either map at the
moment of choice. (The chosen value may however equal the master being
created, or a future master, since those are not yet keys.) -/
theorem c5_ssrc_maps_inverse :
    (∀ (ops : List SendOp) (st : SendState),
      sendSteps initSendState ops = some st → SendInv st) ∧
    (∀ (st : SendState) (choice : Nat) (consider : Bool) (rs : List Nat)
      (r : Nat) (rs1 : List Nat),
      chooseSsrc st choice consider rs = some (r, rs1) →
      acontains st.ssrcData r = false ∧ acontains st.rtxSsrcs r = false) := by
  constructor
  · have main : ∀ (ops : List SendOp) (st0 st : SendState), SendInv st0 →
        sendSteps st0 ops = some st → SendInv st := by
      intro ops
      induction ops with
      | nil =>
        intro st0 st h0 h
        simp only [sendSteps, Option.some.injEq] at h
        exact h ▸ h0
      | cons op ops ih =>
        intro st0 st h0 h
        simp only [sendSteps] at h
        rcases hs : sendStep st0 op with _ | st2 <;> rw [hs] at h
        · cases h
        · exact ih st2 st (sendStep_inv st0 op st2 h0 hs) h
    exact fun ops st h => main ops initSendState st sendInv_init h
  · intro st choice consider rs r rs1 h
    have hf := chooseSsrc_fresh st choice consider rs r rs1 h
    unfold ssrcTaken at hf
    exact Bool.or_eq_false_iff.1 hf

/-- Witness for C5: the two-operation run that sets the `ssrc-map` to
`{7 → 7}` and then sees caps for ssrc 7 reaches a state (whose entry
has rtx ssrc 7 = its master) that still satisfies the inverse-maps
invariant. -/
theorem c5_ssrc_maps_inverse_witness :
    SendInv { initSendState with
              externalSsrcMap := some [(7, 7)],
              ssrcData := [(7, ssrcRtxDataNew 7 3)],
              rtxSsrcs := [(7, 7)] } :=
  c5_ssrc_maps_inverse.1 [SendOp.setSsrcMap [(7, 7)], SendOp.caps 7 none [3]] _
    (by decide)

/-! ## Claim C10: machinery -/

theorem senderReqEvent_hit (st : SendState) (seqnum ssrc : Nat) (d : SsrcData)
    (item : QItem) (hd : alookup st.ssrcData ssrc = some d)
    (hl : seqLookup d.queue (seqnum % 65536) = some item) :
    (senderReqEvent st seqnum ssrc).1 =
      { st with numReq := st.numReq + 1, pending := st.pending ++ [item.buffer] } := by
  unfold senderReqEvent
  have hc : acontains st.ssrcData ssrc = true := by
    simp [acontains, hd]
  simp only [hc, if_true, hd, Option.getD_some, hl]

theorem requestN (n : Nat) : ∀ (st : SendState) (seqnum ssrc : Nat) (d : SsrcData)
    (item : QItem), alookup st.ssrcData ssrc = some d →
    seqLookup d.queue (seqnum % 65536) = some item →
    sendSteps st (List.replicate n (SendOp.request seqnum ssrc)) =
      some { st with numReq := st.numReq + n,
                     pending := st.pending ++ List.replicate n item.buffer } := by
  induction n with
  | zero =>
    intro st seqnum ssrc d item hd hl
    simp [sendSteps]
  | succ n ih =>
    intro st seqnum ssrc d item hd hl
    rw [List.replicate_succ]
    simp only [sendSteps, sendStep]
    rw [senderReqEvent_hit st seqnum ssrc d item hd hl]
    rw [ih { st with numReq := st.numReq + 1, pending := st.pending ++ [item.buffer] }
      seqnum ssrc d item hd hl]
    simp only [Option.some.injEq, SendState.mk.injEq, true_and, and_true]
    refine ⟨?_, ?_⟩
    all_goals first
      | omega
      | simp [List.append_assoc, List.replicate_succ]

/-- `_gst_rtp_rtx_buffer_new` on a buffer whose ssrc already has an
entry: no draws consumed, the entry's `next_seqnum` bumped, the packet
fully determined. -/
theorem rtxBufferNew_known (st : SendState) (b : RtpPacket) (rs : List Nat)
    (d : SsrcData) (hd : alookup st.ssrcData b.getSsrc = some d) :
    rtxBufferNew st b rs =
      some (updateData st b.getSsrc { d with nextSeqnum := (d.nextSeqnum + 1) % 65536 },
        rtxPacketFor st b d, rs) := by
  have hc : acontains st.ssrcData b.getSsrc = true := by
    simp [acontains, hd]
  have hget : getSsrcData st b.getSsrc rs = some (st, rs) := by
    unfold getSsrcData
    rw [if_pos hc]
  unfold rtxBufferNew rtxPacketFor
  rw [hget]
  simp only [hd, Option.getD_some]
  rfl

theorem emitAll_replicate (n : Nat) : ∀ (st : SendState) (b : RtpPacket) (rs : List Nat)
    (d : SsrcData), alookup st.ssrcData b.getSsrc = some d → 12 ≤ b.header.length →
    ∃ st2 outs, emitAll st (List.replicate n b) rs = some (st2, outs, rs) ∧
      outs.length = n ∧
      (∀ i, i < n → (outs.getD i b).getSeq = (d.nextSeqnum + i) % 65536 ∧
        (outs.getD i b).payload =
          (b.getSeq / 256 % 256) :: (b.getSeq % 256) :: b.payload) ∧
      st2.pending = st.pending ∧ st2.numPkt = st.numPkt ∧ st2.numReq = st.numReq := by
  induction n with
  | zero =>
    intro st b rs d hd hlen
    exact ⟨st, [], by simp [emitAll], rfl, fun i hi => absurd hi (by omega), rfl, rfl, rfl⟩
  | succ n ih =>
    intro st b rs d hd hlen
    have hd2 : alookup (updateData st b.getSsrc
        { d with nextSeqnum := (d.nextSeqnum + 1) % 65536 }).ssrcData b.getSsrc =
        some { d with nextSeqnum := (d.nextSeqnum + 1) % 65536 } := by
      unfold updateData
      exact alookup_ainsert_self _ _ _
    obtain ⟨st2, outs, he, hlen2, hseq, hp1, hp2, hp3⟩ :=
      ih (updateData st b.getSsrc { d with nextSeqnum := (d.nextSeqnum + 1) % 65536 })
        b rs _ hd2 hlen
    refine ⟨st2, rtxPacketFor st b d :: outs, ?_, by simp [hlen2], ?_,
      by simpa using hp1, by simpa using hp2, by simpa using hp3⟩
    · rw [List.replicate_succ]
      simp only [emitAll]
      rw [rtxBufferNew_known st b rs d hd]
      dsimp only
      rw [he]
    · intro i hi
      cases i with
      | zero =>
        constructor
        · simp only [List.getD_cons_zero]
          unfold rtxPacketFor
          rw [RtpPacket.getSeq_clearPaddingFlag, RtpPacket.getSeq_setPt,
            RtpPacket.getSeq_setSeq]
          · omega
          · rw [RtpPacket.headerLength_setSsrc]
            simpa using by omega
        · simp only [List.getD_cons_zero]
          unfold rtxPacketFor
          rw [RtpPacket.payload_clearPaddingFlag, RtpPacket.payload_setPt,
            RtpPacket.payload_setSeq, RtpPacket.payload_setSsrc]
      | succ j =>
        have hj := hseq j (by omega)
        constructor
        · rw [List.getD_cons_succ, hj.1]
          simp only
          omega
        · rw [List.getD_cons_succ, hj.2]

theorem sendPtRefresh_frame (st : SendState) :
    (sendPtRefresh st).ssrcData = st.ssrcData ∧ (sendPtRefresh st).pending = st.pending ∧
    (sendPtRefresh st).numPkt = st.numPkt ∧ (sendPtRefresh st).numReq = st.numReq ∧
    (sendPtRefresh st).maxSizePackets = st.maxSizePackets ∧
    (sendPtRefresh st).maxSizeTime = st.maxSizeTime := by
  unfold sendPtRefresh
  split <;> exact ⟨rfl, rfl, rfl, rfl, rfl, rfl⟩

theorem storeBuffer_frame (st : SendState) (A seqn ts : Nat) (buf : RtpPacket)
    (rs : List Nat) (st2 : SendState) (rs2 : List Nat)
    (h : storeBuffer st A seqn ts buf rs = some (st2, rs2)) :
    st2.pending = st.pending ∧ st2.numPkt = st.numPkt ∧ st2.numReq = st.numReq ∧
    st2.rtxPtMap = st.rtxPtMap ∧
    (∀ m d, alookup st.ssrcData m = some d →
      ∃ d2, alookup st2.ssrcData m = some d2 ∧ d2.rtxSsrc = d.rtxSsrc ∧
        d2.nextSeqnum = d.nextSeqnum) := by
  simp only [storeBuffer] at h
  rcases hg : getSsrcData st A rs with _ | ⟨stg, rsg⟩ <;> rw [hg] at h
  · cases h
  · dsimp only at h
    obtain ⟨h2, h3⟩ : _ ∧ _ := by
      simpa only [Option.some.injEq, Prod.mk.injEq] using h
    rcases getSsrcData_cases st A rs stg rsg hg with ⟨heq, _, hc⟩ | ⟨r, dr, hcf, hfresh, heq⟩
    · subst heq
      obtain ⟨dA, hdA⟩ := (acontains_iff _ _).1 hc
      rw [← h2]
      unfold updateData
      rw [hdA]
      simp only [Option.getD_some]
      refine ⟨trivial, trivial, trivial, trivial, ?_⟩
      intro m d hm
      by_cases hmA : A = m
      · subst hmA
        rw [alookup_ainsert_self]
        obtain rfl : dA = d := Option.some.inj (hdA.symm.trans hm)
        exact ⟨_, rfl, rfl, rfl⟩
      · rw [alookup_ainsert_ne _ _ _ _ hmA]
        exact ⟨d, hm, rfl, rfl⟩
    · subst heq
      rw [← h2]
      unfold updateData
      simp only [alookup_ainsert_self, Option.getD_some]
      refine ⟨trivial, trivial, trivial, trivial, ?_⟩
      intro m d hm
      have hmA : A ≠ m := by
        intro he
        rw [← he, (acontains_false_iff _ _).1 hcf] at hm
        cases hm
      rw [alookup_ainsert_ne _ _ _ _ hmA, alookup_ainsert_ne _ _ _ _ hmA]
      exact ⟨d, hm, rfl, rfl⟩

set_option maxHeartbeats 1600000 in
set_option maxRecDepth 4000 in
/-- Core run lemma for duplicate requests: N requests for the same
stored (seqnum, ssrc) followed by a master ingress produce N RTX
packets with seqnums `(s0 + i) mod 2^16` ahead of the master packet. -/
theorem c10_core (n : Nat) (st : SendState) (seqnum ssrc : Nat)
    (d : SsrcData) (item : QItem)
    (hd : alookup st.ssrcData ssrc = some d)
    (hl : seqLookup d.queue (seqnum % 65536) = some item)
    (hbs : item.buffer.getSsrc = ssrc)
    (hpend : st.pending = [])
    (hlen : 12 ≤ item.buffer.header.length)
    (pkt : RtpPacket) (rs : List Nat) (stN stF : SendState) (outs : List RtpPacket)
    (hsteps : sendSteps st (List.replicate n (SendOp.request seqnum ssrc)) = some stN)
    (hchain : senderChain stN pkt rs = some (stF, outs)) :
    stN.pending = List.replicate n item.buffer ∧
    stN.numReq = st.numReq + n ∧
    stF.numPkt = st.numPkt + n ∧
    outs.length = n + 1 ∧
    outs.getD n pkt = pkt ∧
    (∀ i, i < n → (outs.getD i pkt).getSeq = (d.nextSeqnum + i) % 65536 ∧
      (outs.getD i pkt).payload = (item.buffer.getSeq / 256 % 256) ::
        (item.buffer.getSeq % 256) :: item.buffer.payload) ∧
    (n ≤ 65536 → ∀ i j, i < n → j < n → i ≠ j →
      (outs.getD i pkt).getSeq ≠ (outs.getD j pkt).getSeq) := by
  rw [requestN n st seqnum ssrc d item hd hl] at hsteps
  obtain rfl : _ = stN := Option.some.inj hsteps
  simp only [hpend, List.nil_append]
  -- the state after the N requests
  refine ⟨trivial, trivial, ?_⟩
  simp only [senderChain] at hchain
  set stR := sendPtRefresh
    { st with
      numReq := st.numReq + n
      pending := st.pending ++ List.replicate n item.buffer } with hstR
  obtain ⟨hR1, hR2, hR3, hR4, hR5, hR6⟩ := sendPtRefresh_frame
    { st with
      numReq := st.numReq + n
      pending := st.pending ++ List.replicate n item.buffer }
  have hRd : alookup stR.ssrcData ssrc = some d := by
    rw [← hstR] at hR1
    rw [hR1]
    exact hd
  have hRpending : stR.pending = List.replicate n item.buffer := by
    rw [← hstR] at hR2
    rw [hR2]
    simp [hpend]
  have hRnumPkt : stR.numPkt = st.numPkt := by
    rw [← hstR] at hR3
    rw [hR3]
  -- the store step: either branch leaves the relevant fields intact
  have hmain : ∀ (stS : SendState) (rsS : List Nat) (d2 : SsrcData),
      stS.pending = List.replicate n item.buffer → stS.numPkt = st.numPkt →
      alookup stS.ssrcData ssrc = some d2 → d2.nextSeqnum = d.nextSeqnum →
      (match emitAll
          (if stS.pending.length > 0 then
            { stS with pending := [], numPkt := stS.numPkt + stS.pending.length }
          else stS) stS.pending rsS with
        | none => none
        | some (st3, outs2, _) => some (st3, outs2 ++ [pkt])) = some (stF, outs) →
      stF.numPkt = st.numPkt + n ∧
      outs.length = n + 1 ∧
      outs.getD n pkt = pkt ∧
      (∀ i, i < n → (outs.getD i pkt).getSeq = (d.nextSeqnum + i) % 65536 ∧
        (outs.getD i pkt).payload = (item.buffer.getSeq / 256 % 256) ::
          (item.buffer.getSeq % 256) :: item.buffer.payload) ∧
      (n ≤ 65536 → ∀ i j, i < n → j < n → i ≠ j →
        (outs.getD i pkt).getSeq ≠ (outs.getD j pkt).getSeq) := by
    intro stS rsS d2 hSp hSn hSd hSseq hm
    have hdet : (if stS.pending.length > 0 then
        { stS with pending := [], numPkt := stS.numPkt + stS.pending.length }
      else stS).ssrcData = stS.ssrcData := by
      split <;> rfl
    have hdetPkt : (if stS.pending.length > 0 then
        { stS with pending := [], numPkt := stS.numPkt + stS.pending.length }
      else stS).numPkt = st.numPkt + n := by
      split
      · simp [hSn, hSp]
      · rename_i hh
        rw [hSp] at hh
        simp at hh
        simp [hSn, hh]
    obtain ⟨stE, rtxOuts, hE, hElen, hEseq, hEp, hEn, hEr⟩ :=
      emitAll_replicate n (if stS.pending.length > 0 then
          { stS with pending := [], numPkt := stS.numPkt + stS.pending.length }
        else stS) item.buffer rsS d2
        (by rw [hdet, hbs]; exact hSd) hlen
    rw [← hSp] at hE
    rw [hE] at hm
    simp only [Option.some.injEq, Prod.mk.injEq] at hm
    obtain ⟨hmF, hmO⟩ := hm
    subst hmF
    subst hmO
    have hlenR : rtxOuts.length = n := hElen
    refine ⟨by rw [hEn, hdetPkt], by simp [hlenR], ?_, ?_, ?_⟩
    · have hge : rtxOuts.length ≤ n := by omega
      rw [List.getD_append_right _ _ _ _ hge, hlenR]
      simp
    · intro i hi
      have hgi : i < rtxOuts.length := by omega
      have h1 := hEseq i (by omega)
      rw [List.getD_eq_getElem rtxOuts item.buffer hgi] at h1
      rw [List.getD_append _ _ _ _ hgi, List.getD_eq_getElem rtxOuts pkt hgi]
      rw [hSseq] at h1
      exact h1
    · intro hn i j hi hj hne
      have hgi : i < rtxOuts.length := by omega
      have hgj : j < rtxOuts.length := by omega
      have h1 := hEseq i (by omega)
      have h2 := hEseq j (by omega)
      rw [List.getD_eq_getElem rtxOuts item.buffer hgi] at h1
      rw [List.getD_eq_getElem rtxOuts item.buffer hgj] at h2
      rw [List.getD_append _ _ _ _ hgi, List.getD_append _ _ _ _ hgj,
        List.getD_eq_getElem rtxOuts pkt hgi, List.getD_eq_getElem rtxOuts pkt hgj]
      rw [h1.1, h2.1, hSseq]
      omega
  by_cases hpt : acontains stR.rtxPtMap pkt.getPt
  · rw [if_pos hpt] at hchain
    rcases hs : storeBuffer stR pkt.getSsrc pkt.getSeq pkt.getTimestamp pkt rs
      with _ | ⟨stS, rsS⟩ <;> rw [hs] at hchain
    · cases hchain
    · obtain ⟨hf1, hf2, hf3, hf4, hf5⟩ := storeBuffer_frame _ _ _ _ _ _ _ _ hs
      obtain ⟨d2, hd2, hd2r, hd2s⟩ := hf5 ssrc d hRd
      exact hmain stS rsS d2 (by rw [hf1, hRpending]) (by rw [hf2, hRnumPkt]) hd2 hd2s
        hchain
  · rw [if_neg hpt] at hchain
    exact hmain stR rs d hRpending hRnumPkt hRd rfl hchain

theorem sendPtRefresh_of_unchanged (st : SendState) (h : st.ptMapChanged = false) :
    sendPtRefresh st = st := by
  unfold sendPtRefresh
  rw [h]
  simp

theorem storeBuffer_some (st : SendState) (A seqn ts : Nat) (buf : RtpPacket)
    (rs : List Nat) (h : acontains st.ssrcData A = true) :
    ∃ st2, storeBuffer st A seqn ts buf rs = some (st2, rs) := by
  have hget : getSsrcData st A rs = some (st, rs) := by
    unfold getSsrcData
    rw [if_pos h]
  unfold storeBuffer
  rw [hget]
  exact ⟨_, rfl⟩

/-- A chain ingress succeeds (consumes no random draws) whenever the
incoming packet's ssrc already has an entry and every pending buffer
belongs to a known master. -/
theorem senderChain_some (st : SendState) (pkt b : RtpPacket) (rs : List Nat)
    (n : Nat) (d0 : SsrcData)
    (hpend : st.pending = List.replicate n b)
    (hb : alookup st.ssrcData b.getSsrc = some d0)
    (hlen : 12 ≤ b.header.length)
    (hps : acontains st.ssrcData pkt.getSsrc = true)
    (hchg : st.ptMapChanged = false) :
    ∃ stF outs, senderChain st pkt rs = some (stF, outs) := by
  simp only [senderChain, sendPtRefresh_of_unchanged st hchg]
  by_cases hpt : acontains st.rtxPtMap pkt.getPt
  · rw [if_pos hpt]
    obtain ⟨st2, hsb⟩ :=
      storeBuffer_some st pkt.getSsrc pkt.getSeq pkt.getTimestamp pkt rs hps
    rw [hsb]
    dsimp only
    obtain ⟨hf1, hf2, hf3, hf4, hf5⟩ := storeBuffer_frame _ _ _ _ _ _ _ _ hsb
    obtain ⟨d2, hd2, hd2r, hd2s⟩ := hf5 b.getSsrc d0 hb
    have hdet : (if st2.pending.length > 0 then
        { st2 with pending := [], numPkt := st2.numPkt + st2.pending.length }
      else st2).ssrcData = st2.ssrcData := by
      split <;> rfl
    have hp2 : st2.pending = List.replicate n b := by rw [hf1, hpend]
    obtain ⟨stE, outs, hE, hrest⟩ := emitAll_replicate n
      (if st2.pending.length > 0 then
        { st2 with pending := [], numPkt := st2.numPkt + st2.pending.length }
      else st2) b rs d2 (by rw [hdet]; exact hd2) hlen
    rw [← hp2] at hE
    rw [hE]
    exact ⟨_, _, rfl⟩
  · rw [if_neg hpt]
    dsimp only
    have hdet : (if st.pending.length > 0 then
        { st with pending := [], numPkt := st.numPkt + st.pending.length }
      else st).ssrcData = st.ssrcData := by
      split <;> rfl
    obtain ⟨stE, outs, hE, hrest⟩ := emitAll_replicate n
      (if st.pending.length > 0 then
        { st with pending := [], numPkt := st.numPkt + st.pending.length }
      else st) b rs d0 (by rw [hdet]; exact hb) hlen
    rw [← hpend] at hE
    rw [hE]
    exact ⟨_, _, rfl⟩

/-- Claim C10 (amended): N requests for the same stored (seqnum, ssrc)
arriving before the next master ingress append N references to the
stored buffer to the pending queue; that next ingress credits
`num_rtx_packets` by N at detachment and emits N RTX packets for the
same original packet — each carrying the successively post-incremented
RTX sequence number `(s0 + i) mod 2^16` — before the master packet
itself. The N sequence numbers are pairwise distinct whenever
`N ≤ 2^16`; for larger N the 16-bit counter wraps and they repeat. -/
theorem c10_duplicate_requests (n : Nat) (st : SendState) (seqnum ssrc : Nat)
    (d : SsrcData) (item : QItem)
    (hd : alookup st.ssrcData ssrc = some d)
    (hl : seqLookup d.queue (seqnum % 65536) = some item)
    (hbs : item.buffer.getSsrc = ssrc)
    (hpend : st.pending = [])
    (hlen : 12 ≤ item.buffer.header.length)
    (pkt : RtpPacket) (rs : List Nat) (stN stF : SendState) (outs : List RtpPacket)
    (hsteps : sendSteps st (List.replicate n (SendOp.request seqnum ssrc)) = some stN)
    (hchain : senderChain stN pkt rs = some (stF, outs)) :
    stN.pending = List.replicate n item.buffer ∧
    stN.numReq = st.numReq + n ∧
    stF.numPkt = st.numPkt + n ∧
    outs.length = n + 1 ∧
    outs.getD n pkt = pkt ∧
    (∀ i, i < n → (outs.getD i pkt).getSeq = (d.nextSeqnum + i) % 65536 ∧
      (outs.getD i pkt).payload = (item.buffer.getSeq / 256 % 256) ::
        (item.buffer.getSeq % 256) :: item.buffer.payload) ∧
    (n ≤ 65536 → ∀ i j, i < n → j < n → i ≠ j →
      (outs.getD i pkt).getSeq ≠ (outs.getD j pkt).getSeq) :=
  c10_core n st seqnum ssrc d item hd hl hbs hpend hlen pkt rs stN stF outs hsteps hchain

theorem alookup_c10 : alookup c10State.ssrcData 1 = some c10Data := rfl

theorem seqLookup_c10 : seqLookup c10Data.queue (5 % 65536) = some c10Item := by
  unfold c10Data seqLookup
  unfold bsearchIdx
  norm_num [itemsCmp, compareSeqnum, toInt16, c10Item]

/-- A 65537th duplicate request wraps the 16-bit RTX counter: the first
and the 65537th RTX packet of the flushing ingress carry the same RTX
sequence number 0, so the emitted sequence numbers are not pairwise
distinct. -/
theorem c10_counterexample :
    ∃ stN stF outs,
      sendSteps c10State (List.replicate 65537 (SendOp.request 5 1)) = some stN ∧
      senderChain stN c10Pkt [] = some (stF, outs) ∧
      outs.length = 65538 ∧
      (outs.getD 0 c10Pkt).getSeq = (outs.getD 65536 c10Pkt).getSeq := by
  have hsteps : sendSteps c10State (List.replicate 65537 (SendOp.request 5 1)) =
      some c10StateN :=
    requestN 65537 c10State 5 1 c10Data c10Item alookup_c10 seqLookup_c10
  obtain ⟨stF, outs, hchain⟩ := senderChain_some c10StateN c10Pkt c10Buf [] 65537
    c10Data rfl rfl (by decide) (by decide) rfl
  have h := c10_core 65537 c10State 5 1 c10Data c10Item alookup_c10 seqLookup_c10
    rfl rfl (by decide) c10Pkt [] c10StateN stF outs hsteps hchain
  refine ⟨c10StateN, stF, outs, hsteps, hchain, ?_, ?_⟩
  · rw [h.2.2.2.1]
  · rw [(h.2.2.2.2.2.1 0 (by norm_num)).1, (h.2.2.2.2.2.1 65536 (by norm_num)).1]
    omega

theorem c10_duplicate_requests_witness :
    ∃ stN stF outs,
      sendSteps c10State (List.replicate 2 (SendOp.request 5 1)) = some stN ∧
      senderChain stN c10Pkt [] = some (stF, outs) ∧
      stN.pending = List.replicate 2 c10Buf ∧
      stF.numPkt = c10State.numPkt + 2 ∧
      outs.length = 3 ∧
      (outs.getD 0 c10Pkt).getSeq = 0 ∧
      (outs.getD 1 c10Pkt).getSeq = 1 := by
  have hsteps : sendSteps c10State (List.replicate 2 (SendOp.request 5 1)) =
      some c10StateW :=
    requestN 2 c10State 5 1 c10Data c10Item alookup_c10 seqLookup_c10
  obtain ⟨stF, outs, hchain⟩ := senderChain_some c10StateW c10Pkt c10Buf [] 2
    c10Data rfl rfl (by decide) (by decide) rfl
  have h := c10_duplicate_requests 2 c10State 5 1 c10Data c10Item alookup_c10
    seqLookup_c10 rfl rfl (by decide) c10Pkt [] c10StateW stF outs hsteps hchain
  refine ⟨c10StateW, stF, outs, hsteps, hchain, h.1, h.2.2.1, ?_, ?_, ?_⟩
  · rw [h.2.2.2.1]
  · rw [(h.2.2.2.2.2.1 0 (by norm_num)).1]
    norm_num [c10Data]
  · rw [(h.2.2.2.2.2.1 1 (by norm_num)).1]
    norm_num [c10Data]

/-! ## Claim C2: history order and lookup machinery -/

theorem isSortedSerial_tail (x : QItem) (q : List QItem)
    (h : isSortedSerial (x :: q) = true) : isSortedSerial q = true := by
  cases q with
  | nil => rfl
  | cons b r =>
    unfold isSortedSerial at h
    simp only [Bool.and_eq_true] at h
    exact h.2

theorem isSortedSerial_of_suffix (q1 q2 : List QItem) (h : List.IsSuffix q1 q2)
    (hs : isSortedSerial q2 = true) : isSortedSerial q1 = true := by
  obtain ⟨t, rfl⟩ := h
  induction t with
  | nil => exact hs
  | cons x xs ih => exact ih (isSortedSerial_tail x _ hs)

theorem isSortedSerial_append (q : List QItem) (it : QItem) :
    isSortedSerial q = true → (∀ x ∈ q, itemsCmp x.seqnum it.seqnum ≤ 0) →
    isSortedSerial (q ++ [it]) = true := by
  induction q with
  | nil =>
    intro _ _
    rfl
  | cons a rest ih =>
    intro hs hle
    cases rest with
    | nil =>
      have ha := hle a (by simp)
      simp [isSortedSerial, ha]
    | cons b r =>
      simp only [List.cons_append]
      simp only [isSortedSerial, Bool.and_eq_true, decide_eq_true_eq] at hs ⊢
      refine ⟨hs.1, ?_⟩
      have := ih hs.2 (fun x hx => hle x (by simp [hx]))
      simpa using this

theorem evictCountLoop_suffix (maxP : Nat) : ∀ q : List QItem,
    List.IsSuffix (evictCountLoop maxP q) q := by
  intro q
  induction q with
  | nil => exact List.suffix_refl _
  | cons x xs ih =>
    unfold evictCountLoop
    split
    · exact List.IsSuffix.trans ih (List.suffix_cons x xs)
    · exact List.suffix_refl _

theorem evictTimeLoop_suffix (maxT : Nat) (cr : Int) : ∀ q : List QItem,
    List.IsSuffix (evictTimeLoop maxT cr q) q := by
  intro q
  induction q with
  | nil => exact List.suffix_refl _
  | cons x xs ih =>
    unfold evictTimeLoop
    split
    · exact List.IsSuffix.trans ih (List.suffix_cons x xs)
    · exact List.suffix_refl _

/-- The queue produced by the two eviction loops of `storeBuffer` is a
suffix of the appended queue. -/
theorem storeQueue_suffix (maxP maxT : Nat) (cr : Int) (q1 : List QItem) :
    List.IsSuffix
      (if maxT ≠ 0 then
        evictTimeLoop maxT cr (if maxP ≠ 0 then evictCountLoop maxP q1 else q1)
      else (if maxP ≠ 0 then evictCountLoop maxP q1 else q1)) q1 := by
  have h2 : List.IsSuffix (if maxP ≠ 0 then evictCountLoop maxP q1 else q1) q1 := by
    split
    · exact evictCountLoop_suffix maxP q1
    · exact List.suffix_refl q1
  split
  · exact List.IsSuffix.trans (evictTimeLoop_suffix maxT cr _) h2
  · exact h2

/-- `buffer_queue_items_cmp` agrees with the serial offsets from any
base as long as both seqnums lie in the half-window of that base. -/
theorem itemsCmp_serial (base a b : Nat) (ha : a < 65536) (hb : b < 65536)
    (hwa : serialOff base a < 32768) (hwb : serialOff base b < 32768) :
    (itemsCmp a b < 0 ↔ serialOff base a < serialOff base b) ∧
    (itemsCmp a b = 0 ↔ a = b) ∧
    (0 < itemsCmp a b ↔ serialOff base b < serialOff base a) := by
  unfold itemsCmp compareSeqnum toInt16
  unfold serialOff at hwa hwb ⊢
  split <;> omega

/-- The `g_sequence_lookup` binary search finds any stored seqnum on a
queue that is strictly serially ascending inside a half-window. -/
theorem bsearchIdx_finds (seqs : List QItem) (key base : Nat)
    (hk : key < 65536) (hkw : serialOff base key < 32768)
    (hall : ∀ i, i < seqs.length → (seqs.getD i defaultQItem).seqnum < 65536 ∧
      serialOff base (seqs.getD i defaultQItem).seqnum < 32768)
    (hmono : ∀ j, j < seqs.length → ∀ i, i < j →
      serialOff base (seqs.getD i defaultQItem).seqnum <
        serialOff base (seqs.getD j defaultQItem).seqnum) :
    ∀ fuel lo hi p, hi - lo ≤ fuel → lo ≤ p → p < hi → hi ≤ seqs.length →
      (seqs.getD p defaultQItem).seqnum = key →
      ∃ item, bsearchIdx seqs key lo hi = some item ∧ item.seqnum = key := by
  intro fuel
  induction fuel with
  | zero =>
    intro lo hi p hf hlp hph hhl hpk
    exact absurd hph (by omega)
  | succ fuel ih =>
    intro lo hi p hf hlp hph hhl hpk
    have hlh : lo < hi := by omega
    unfold bsearchIdx
    rw [dif_pos hlh]
    dsimp only
    have hmlen : (lo + hi) / 2 < seqs.length := by omega
    obtain ⟨hs65, hsw⟩ := hall ((lo + hi) / 2) hmlen
    have hcmp := itemsCmp_serial base (seqs.getD ((lo + hi) / 2) defaultQItem).seqnum
      key hs65 hk hsw hkw
    have hoffp : serialOff base (seqs.getD p defaultQItem).seqnum = serialOff base key := by
      rw [hpk]
    rcases lt_trichotomy
        (itemsCmp (seqs.getD ((lo + hi) / 2) defaultQItem).seqnum key) 0 with hc | hc | hc
    · rw [if_neg (by omega), if_pos hc]
      have hmid : (lo + hi) / 2 < p := by
        by_contra hnot
        rcases Nat.lt_or_ge p ((lo + hi) / 2) with hplt | hpge
        · have := hmono ((lo + hi) / 2) hmlen p hplt
          have hlt := hcmp.1.1 hc
          omega
        · have hpe : p = (lo + hi) / 2 := by omega
          have hse : (seqs.getD ((lo + hi) / 2) defaultQItem).seqnum = key := by
            rw [← hpe, hpk]
          have : itemsCmp (seqs.getD ((lo + hi) / 2) defaultQItem).seqnum key = 0 :=
            hcmp.2.1.2 hse
          omega
      exact ih ((lo + hi) / 2 + 1) hi p (by omega) (by omega) hph hhl hpk
    · rw [if_pos hc]
      exact ⟨seqs.getD ((lo + hi) / 2) defaultQItem, rfl, hcmp.2.1.1 hc⟩
    · rw [if_neg (by omega), if_neg (by omega)]
      have hmid : p < (lo + hi) / 2 := by
        by_contra hnot
        rcases Nat.lt_or_ge ((lo + hi) / 2) p with hplt | hpge
        · have := hmono p (by omega) ((lo + hi) / 2) hplt
          have hlt := hcmp.2.2.1 hc
          omega
        · have hpe : p = (lo + hi) / 2 := by omega
          have hse : (seqs.getD ((lo + hi) / 2) defaultQItem).seqnum = key := by
            rw [← hpe, hpk]
          have : itemsCmp (seqs.getD ((lo + hi) / 2) defaultQItem).seqnum key = 0 :=
            hcmp.2.1.2 hse
          omega
      exact ih lo ((lo + hi) / 2) p (by omega) hlp hmid (by omega) hpk

theorem seqLookup_finds (q : List QItem) (key base p : Nat)
    (hk : key < 65536) (hkw : serialOff base key < 32768)
    (hall : ∀ i, i < q.length → (q.getD i defaultQItem).seqnum < 65536 ∧
      serialOff base (q.getD i defaultQItem).seqnum < 32768)
    (hmono : ∀ j, j < q.length → ∀ i, i < j →
      serialOff base (q.getD i defaultQItem).seqnum <
        serialOff base (q.getD j defaultQItem).seqnum)
    (hp : p < q.length) (hpk : (q.getD p defaultQItem).seqnum = key) :
    ∃ item, seqLookup q key = some item ∧ item.seqnum = key := by
  unfold seqLookup
  exact bsearchIdx_finds q key base hk hkw hall hmono q.length 0 q.length p
    (by omega) (by omega) hp (by omega) hpk

theorem senderReqEvent_hit_eq (st : SendState) (seqnum ssrc : Nat) (d : SsrcData)
    (item : QItem) (hd : alookup st.ssrcData ssrc = some d)
    (hl : seqLookup d.queue (seqnum % 65536) = some item) :
    senderReqEvent st seqnum ssrc =
      ({ st with numReq := st.numReq + 1, pending := st.pending ++ [item.buffer] },
        true, false) := by
  unfold senderReqEvent
  have hc : acontains st.ssrcData ssrc = true := by
    simp [acontains, hd]
  simp only [hc, if_true, hd, Option.getD_some, hl]

/-- A store on an existing entry appends the new item and then only
drops from the head: the new queue is a suffix of the appended one, and
sortedness is preserved exactly for serially ascending arrivals. -/
theorem storeBuffer_queue (st : SendState) (A seqn ts : Nat) (buf : RtpPacket)
    (rs : List Nat) (d : SsrcData) (st2 : SendState) (rs2 : List Nat) (d2 : SsrcData)
    (hd : alookup st.ssrcData A = some d)
    (h : storeBuffer st A seqn ts buf rs = some (st2, rs2))
    (hd2 : alookup st2.ssrcData A = some d2) :
    List.IsSuffix d2.queue
      (d.queue ++ [{ seqnum := seqn, timestamp := ts, buffer := buf }]) ∧
    (isSortedSerial d.queue = true →
      (∀ x ∈ d.queue, itemsCmp x.seqnum seqn ≤ 0) →
      isSortedSerial d2.queue = true) := by
  have hc : acontains st.ssrcData A = true := by
    simp [acontains, hd]
  have hget : getSsrcData st A rs = some (st, rs) := by
    unfold getSsrcData
    rw [if_pos hc]
  unfold storeBuffer at h
  rw [hget] at h
  dsimp only at h
  rw [hd] at h
  simp only [Option.getD_some, Option.some.injEq, Prod.mk.injEq] at h
  obtain ⟨h2, h3⟩ := h
  rw [← h2] at hd2
  unfold updateData at hd2
  rw [alookup_ainsert_self] at hd2
  obtain rfl : _ = d2 := Option.some.inj hd2
  dsimp only
  constructor
  · exact storeQueue_suffix st.maxSizePackets st.maxSizeTime d.clockRate _
  · intro hsorted hle
    have hq1 : isSortedSerial
        (d.queue ++ [{ seqnum := seqn, timestamp := ts, buffer := buf }]) = true :=
      isSortedSerial_append d.queue _ hsorted hle
    exact isSortedSerial_of_suffix _ _
      (storeQueue_suffix st.maxSizePackets st.maxSizeTime d.clockRate _) hq1

/-- Claim C2 counterexample: masters arriving out of order. The chain
appends (`g_sequence_append`), so ingress of seqnum 10 then seqnum 5 on
the same master leaves the history [10, 5], which is not sorted under
the serial comparator. -/
theorem c2_counterexample :
    ((sendSteps c2State [SendOp.chain (mkPkt 1 10 96 100 [7]) [],
        SendOp.chain (mkPkt 1 5 96 200 [8]) []]).map
      (fun st =>
        (((alookup st.ssrcData 1).getD defaultSsrcData).queue.map QItem.seqnum,
          isSortedSerial ((alookup st.ssrcData 1).getD defaultSsrcData).queue))) =
      some ([10, 5], false) := by
  decide

/-- Claim C2 (amended): a master ingress only appends to the per-ssrc
history (`g_sequence_append`, not a sorted insertion) and the eviction
loops drop from the head, so after a store the queue is a suffix of the
old queue plus the new item; it stays seqnum-sorted when (and, by the
counterexample, only when) masters arrive serially in order. On a
history that is strictly serially ascending within a half 2^16 window,
the request lookup is a correct binary search: any stored seqnum is
found and its buffer reference is appended to the pending queue. -/
theorem c2_history_sorted_lookup :
    (∀ (st : SendState) (A seqn ts : Nat) (buf : RtpPacket) (rs : List Nat)
       (d : SsrcData) (st2 : SendState) (rs2 : List Nat) (d2 : SsrcData),
      alookup st.ssrcData A = some d →
      storeBuffer st A seqn ts buf rs = some (st2, rs2) →
      alookup st2.ssrcData A = some d2 →
      List.IsSuffix d2.queue
        (d.queue ++ [{ seqnum := seqn, timestamp := ts, buffer := buf }]) ∧
      (isSortedSerial d.queue = true →
        (∀ x ∈ d.queue, itemsCmp x.seqnum seqn ≤ 0) →
        isSortedSerial d2.queue = true)) ∧
    (∀ (st : SendState) (ssrc : Nat) (d : SsrcData) (key base p : Nat),
      alookup st.ssrcData ssrc = some d →
      key < 65536 → serialOff base key < 32768 →
      (∀ i, i < d.queue.length → (d.queue.getD i defaultQItem).seqnum < 65536 ∧
        serialOff base (d.queue.getD i defaultQItem).seqnum < 32768) →
      (∀ j, j < d.queue.length → ∀ i, i < j →
        serialOff base (d.queue.getD i defaultQItem).seqnum <
          serialOff base (d.queue.getD j defaultQItem).seqnum) →
      p < d.queue.length → (d.queue.getD p defaultQItem).seqnum = key →
      ∃ item, seqLookup d.queue key = some item ∧ item.seqnum = key ∧
        senderReqEvent st key ssrc =
          ({ st with
              numReq := st.numReq + 1
              pending := st.pending ++ [item.buffer] }, true, false)) := by
  constructor
  · intro st A seqn ts buf rs d st2 rs2 d2 hd h hd2
    exact storeBuffer_queue st A seqn ts buf rs d st2 rs2 d2 hd h hd2
  · intro st ssrc d key base p hd hk hkw hall hmono hp hpk
    obtain ⟨item, hli, hsk⟩ := seqLookup_finds d.queue key base p hk hkw hall hmono hp hpk
    refine ⟨item, hli, hsk, ?_⟩
    exact senderReqEvent_hit_eq st key ssrc d item hd
      (by rw [Nat.mod_eq_of_lt hk]; exact hli)

theorem c2_history_sorted_lookup_witness :
    ∃ item, seqLookup c10Data.queue 5 = some item ∧ item.seqnum = 5 ∧
      senderReqEvent c10State 5 1 =
        ({ c10State with
            numReq := c10State.numReq + 1
            pending := c10State.pending ++ [item.buffer] }, true, false) :=
  c2_history_sorted_lookup.2 c10State 1 c10Data 5 5 0 alookup_c10
    (by decide) (by decide) (by decide) (by decide) (by decide) (by decide)

end RtpRtx
